import Mathlib

/-!
Verification development for the vTAXI airport taxi-routing system.

The definitions below are a shallow embedding of the two core modules:

* `core/pathfinder.py`  — the waypoint router (`Airport.validate_movement`,
  `Airport.find_path`, the nested `get_segment_nodes` and
  `dijkstra_multi_target` closures);
* `core/airport_process.py` — the geometry indexer / node classifier
  (`AirportProcessor._create_network`, `_round_point`,
  `_identify_special_nodes`, `export_config`).

Modelling conventions:

* Python dicts are modelled as association lists in insertion order;
  Python sets are modelled as duplicate-free lists in insertion order.
* Real-valued measurements (segment lengths, distances, headings) are
  modelled over `ℤ`: the routing logic uses only the ordered additive
  structure of the weights, never division, so any ordered abelian group
  is faithful; `ℤ` keeps every definition kernel-evaluable.
  `float('inf')` is modelled by `none` in an `Option ℤ`.
* Geographic coordinates are `ℚ × ℚ`; the indexer's 7-decimal-digit
  rounding key is modelled as the pair of scaled integers
  (value in units of 10⁻⁷), computed by exact rational arithmetic.
* A Python function that can raise an uncaught exception (KeyError on a
  missing dict key, StopIteration from `next(...)`, ValueError from tuple
  unpacking) is modelled with result type `Option _`, `none` meaning the
  call raises.  `Airport.find_path` therefore returns
  `Option (Option TaxiPath)`: the outer layer records exception freedom,
  the inner layer is the Python return value (`None` or a path).
* The unbounded `while` loop of the Dijkstra search is modelled with an
  explicit fuel parameter; running out of fuel is reported like an
  exception (`none`), so no theorem ever asserts success of a truncated
  search.
-/

/-- Lookup in an association list with string keys, Python `d[k]` /
`d.get(k)` (first matching key). -/
def slookup {α : Type} (l : List (String × α)) (k : String) : Option α :=
  (l.find? (fun kv => kv.1 == k)).map (fun kv => kv.2)

/-- Insertion-ordered set insert (Python `set.add`). -/
def insertNew (l : List String) (x : String) : List String :=
  if l.contains x then l else l ++ [x]

/-- Lexicographic comparison of character lists, CPython's string
comparison by code point. -/
def charListLt : List Char → List Char → Bool
  | [], [] => false
  | [], _ :: _ => true
  | _ :: _, [] => false
  | a :: as1, b :: bs1 => if a < b then true else if b < a then false else charListLt as1 bs1

/-- CPython string `<`. -/
def strLtB (a b : String) : Bool := charListLt a.data b.data

/-- Lexicographic comparison of string lists, CPython's list comparison. -/
def strListLtB : List String → List String → Bool
  | [], [] => false
  | [], _ :: _ => true
  | _ :: _, [] => false
  | a :: as1, b :: bs1 => if strLtB a b then true else if strLtB b a then false else strListLtB as1 bs1

/-! ## Router data model (`pathfinder.py`) -/

/-- `MovementType` enum. -/
inductive MovementType : Type
  | arrival
  | departure
deriving DecidableEq, Repr

/-- `TaxiSegment` dataclass: one routable edge loaded from the network
GeoJSON. -/
structure TaxiSegment : Type where
  segment_id : String
  name : String
  start_node : String
  end_node : String
  length : ℤ
  segment_type : String
deriving DecidableEq, Repr

/-- `TaxiPath`: ordered segment-id list, cumulative distance and the
(never populated) waypoint list. -/
structure TaxiPath : Type where
  segments : List String
  total_distance : ℤ
  waypoints : List String
deriving DecidableEq, Repr

/-- `TaxiPath.add_segment`. -/
def addSegment (p : TaxiPath) (segment_id : String) (distance : ℤ) : TaxiPath :=
  { segments := p.segments ++ [segment_id]
    total_distance := p.total_distance + distance
    waypoints := p.waypoints }

/-- The freshly constructed `TaxiPath()`. -/
def emptyPath : TaxiPath := { segments := [], total_distance := 0, waypoints := [] }

/-- One gate record of `config['gates']['terminals'][t]['gates']` as the
router reads it (`gate['gate_id']`, `gate['node_id']`). -/
structure GateRec : Type where
  gate_id : String
  node_id : String
deriving DecidableEq, Repr

/-- One entry of `config['runway_configurations']`, in the shape the
router's iteration `for name, node in ...` requires: `entrances` and
`exits` are lists of (waypoint name, node id) pairs. -/
structure RunwayConfig : Type where
  departure : String
  arrival : String
  entrances : List (String × String)
  exits : List (String × String)
deriving DecidableEq, Repr

/-- The parts of the configuration JSON the router dereferences:
`runway_configurations` and `gates.terminals` (terminal id ↦ gate list,
in insertion order). -/
structure RouterConfig : Type where
  runway_configurations : List (String × RunwayConfig)
  gates_terminals : List (String × List GateRec)
deriving DecidableEq, Repr

/-- Adjacency structure `self.graph`: node id ↦ list of
(neighbour node, segment id, segment length). -/
abbrev GraphT : Type := List (String × List (String × String × ℤ))

/-- The `Airport` object after `_load_data`. -/
structure Airport : Type where
  geojson_file : String
  config_file : String
  config : RouterConfig
  segments_by_name : List (String × List TaxiSegment)
  all_segments : List TaxiSegment
  graph : GraphT
  airport_config : String
deriving DecidableEq, Repr

/-! ## Loading (`Airport._load_data`, lines 84–110) -/

/-- One GeoJSON feature as `_load_data` inspects it.  Only `name` is
tested for presence/truthiness by the source (`'name' in props and
props['name']`), so only it is optional here; `segment_type` uses
`props.get('segment_type', 'taxiway')`. -/
structure GeoFeature : Type where
  geom_type : String
  name : Option String
  segment_id : String
  start_node : String
  end_node : String
  length : ℤ
  segment_type : Option String
deriving DecidableEq, Repr

/-- The `TaxiSegment` built from a feature that passed the name filter. -/
def featureSegment (f : GeoFeature) (nm : String) : TaxiSegment :=
  { segment_id := f.segment_id
    name := nm
    start_node := f.start_node
    end_node := f.end_node
    length := f.length
    segment_type := f.segment_type.getD "taxiway" }

/-- The name filter of `_load_data`: LineString geometry, `name` key
present and truthy (non-empty). -/
def featureKept (f : GeoFeature) : Bool :=
  f.geom_type == "LineString" &&
    (match f.name with
     | some nm => nm != ""
     | none => false)

/-- First pass of `_load_data`: build `all_segments` (order of the
feature list; one entry appended per feature that passes the filter). -/
def loadSegments : List GeoFeature → List TaxiSegment
  | [] => []
  | f :: rest =>
    (if f.geom_type == "LineString" then
      match f.name with
      | some nm => if nm != "" then [featureSegment f nm] else []
      | none => []
    else []) ++ loadSegments rest

/-- Insert a segment into `segments_by_name` (create the key on first
use, then append). -/
def sbnInsert (sbn : List (String × List TaxiSegment)) (s : TaxiSegment) :
    List (String × List TaxiSegment) :=
  if (sbn.find? (fun kv => kv.1 == s.name)).isSome then
    sbn.map (fun kv => if kv.1 == s.name then (kv.1, kv.2 ++ [s]) else kv)
  else sbn ++ [(s.name, [s])]

/-- `segments_by_name` built from the loaded segments. -/
def buildSegmentsByName (segs : List TaxiSegment) : List (String × List TaxiSegment) :=
  segs.foldl sbnInsert []

/-- Ensure a node key exists in the adjacency dict. -/
def addKey (g : GraphT) (k : String) : GraphT :=
  if (g.find? (fun kv => kv.1 == k)).isSome then g else g ++ [(k, [])]

/-- Append an adjacency entry to a node's list. -/
def addAdj (g : GraphT) (k : String) (e : String × String × ℤ) : GraphT :=
  g.map (fun kv => if kv.1 == k then (kv.1, kv.2 ++ [e]) else kv)

/-- Second pass of `_load_data` (lines 102–110): both directions of every
segment are inserted. -/
def buildGraph (segs : List TaxiSegment) : GraphT :=
  segs.foldl
    (fun g s =>
      let g1 := addKey (addKey g s.start_node) s.end_node
      let g2 := addAdj g1 s.start_node (s.end_node, s.segment_id, s.length)
      addAdj g2 s.end_node (s.start_node, s.segment_id, s.length)) []

/-- The whole of `Airport.__init__` + `_load_data`, given the two decoded
files. -/
def loadAirport (geojson_file config_file : String) (cfg : RouterConfig)
    (features : List GeoFeature) (airport_config : String) : Airport :=
  let segs := loadSegments features
  { geojson_file := geojson_file
    config_file := config_file
    config := cfg
    segments_by_name := buildSegmentsByName segs
    all_segments := segs
    graph := buildGraph segs
    airport_config := airport_config }

/-! ## Validation (`Airport.validate_movement`, lines 112–174) -/

/-- The gate-membership scan over `config['gates']['terminals']` (the
`gate_found` double loop with flag and break). -/
def gateFound (cfg : RouterConfig) (gid : String) : Bool :=
  cfg.gates_terminals.any (fun t => t.2.any (fun g => g.gate_id == gid))

/-- `Airport.validate_movement`.  `none` models an uncaught `KeyError`
when `runway_configurations` lacks the active configuration key. -/
def validate_movement (cfg : RouterConfig) (airport_config : String)
    (mt : MovementType) (points : List String) : Option Bool :=
  if points.length < 2 then some false
  else
    match mt with
    | MovementType.arrival =>
      match slookup cfg.runway_configurations airport_config with
      | none => none
      | some rc =>
        if rc.exits.any (fun pr => points.headD "" == pr.1) then
          if gateFound cfg (points.getLastD "") then some true else some false
        else some false
    | MovementType.departure =>
      if gateFound cfg (points.headD "") then
        match slookup cfg.runway_configurations airport_config with
        | none => none
        | some rc =>
          if rc.entrances.any (fun pr => points.getLastD "" == pr.1) then some true
          else some false
      else some false

/-! ## Gate-node search (`find_path` lines 282–290 and 395–403)

The source initialises `gate_node = None`, scans terminals in order and
breaks out of the outer loop only when the found value is truthy; a
falsy (empty-string) `node_id` therefore lets the scan continue with the
next terminal while keeping `""` as the value of last resort. -/

/-- Final value of the `gate_node` variable (`none` = never assigned). -/
def findGateNode (gid : String) : List (String × List GateRec) → Option String
  | [] => none
  | t :: rest =>
    match t.2.find? (fun g => g.gate_id == gid) with
    | none => findGateNode gid rest
    | some g =>
      if g.node_id == "" then some ((findGateNode gid rest).getD "")
      else some g.node_id

/-! ## Waypoint resolution (`get_segment_nodes`, lines 181–210) -/

/-- All endpoint nodes of the segments named `waypoint`
(`nodes.add(start); nodes.add(end)` over `segments_by_name.get(waypoint,
[])`), as an insertion-ordered set. -/
def genericWaypointNodes (sbn : List (String × List TaxiSegment)) (waypoint : String) :
    List String :=
  ((slookup sbn waypoint).getD []).foldl
    (fun ns s => insertNew (insertNew ns s.start_node) s.end_node) []

/-- `get_segment_nodes`.  The pinned cases fall through to the generic
set when the configuration lists no node for the waypoint, exactly as
the source's `for ... return` loops do. -/
def get_segment_nodes (sbn : List (String × List TaxiSegment)) (rc : RunwayConfig)
    (mt : MovementType) (p0 plast waypoint : String) (enforce_node : Option String) :
    List String :=
  match enforce_node with
  | some n => [n]
  | none =>
    match mt with
    | MovementType.arrival =>
      if waypoint == p0 then
        match rc.exits.find? (fun pr => waypoint == pr.1) with
        | some pr => [pr.2]
        | none => genericWaypointNodes sbn waypoint
      else genericWaypointNodes sbn waypoint
    | MovementType.departure =>
      if waypoint == plast then
        match rc.entrances.find? (fun pr => waypoint == pr.1) with
        | some pr => [pr.2]
        | none => genericWaypointNodes sbn waypoint
      else genericWaypointNodes sbn waypoint

/-! ## Dijkstra (`dijkstra_multi_target`, lines 212–264) -/

/-- `float('inf')`-capable distance value: `none` is `+∞`. -/
abbrev DistV : Type := Option ℤ

/-- `new_dist < stored` with a possibly infinite stored value. -/
def ltDistV (d : ℤ) (v : DistV) : Bool :=
  match v with
  | none => true
  | some x => d < x

/-- `popped_dist > stored` (the stale-entry skip); false against `+∞`. -/
def gtDistV (d : ℤ) (v : DistV) : Bool :=
  match v with
  | none => false
  | some x => x < d

/-- `dist < best_dist` between two possibly infinite values. -/
def ltDistVV (a b : DistV) : Bool :=
  match a, b with
  | none, _ => false
  | some _, none => true
  | some x, some y => x < y

/-- The `distances` dict: node ↦ (distance, segment-id path). -/
abbrev DistMap : Type := List (String × DistV × List String)

/-- `distances[u]`. -/
def dlookup (dm : DistMap) (u : String) : Option (DistV × List String) :=
  (dm.find? (fun kv => kv.1 == u)).map (fun kv => kv.2)

/-- `distances[u] = v` (the key is known to exist wherever the source
assigns). -/
def dupdate (dm : DistMap) (u : String) (v : DistV × List String) : DistMap :=
  dm.map (fun kv => if kv.1 == u then (kv.1, v) else kv)

/-- A priority-queue element `(distance, node, path)`. -/
abbrev PQEntry : Type := ℤ × String × List String

/-- CPython tuple comparison on queue entries (distance, then node
string, then path list). -/
def entryLtB (a b : PQEntry) : Bool :=
  if a.1 < b.1 then true else if b.1 < a.1 then false
  else if strLtB a.2.1 b.2.1 then true else if strLtB b.2.1 a.2.1 then false
  else strListLtB a.2.2 b.2.2

/-- Minimum of a queue under `entryLtB` (the element `heappop`
returns). -/
def minPQEntry : PQEntry → List PQEntry → PQEntry
  | m, [] => m
  | m, e :: es => minPQEntry (if entryLtB e m then e else m) es

/-- `heappop`: remove and return the least entry. -/
def popMin : List PQEntry → Option (PQEntry × List PQEntry)
  | [] => none
  | e :: es =>
    let m := minPQEntry e es
    some (m, (e :: es).erase m)

/-- `next(s for s in self.all_segments if s.segment_id == segment_id)`;
`none` models the `StopIteration` this raises on a dangling id. -/
def findSeg (segs : List TaxiSegment) (sid : String) : Option TaxiSegment :=
  segs.find? (fun s => s.segment_id == sid)

/-- The `for next_node, segment_id, length in self.graph[current]` body:
relax every outgoing edge of the popped node, threading `distances` and
the queue.  `none` models `StopIteration`/`KeyError` escapes. -/
def relaxAll (segs : List TaxiSegment) (forbidden allowed : List String)
    (d : ℤ) (p : List String) :
    List (String × String × ℤ) → DistMap → List PQEntry → Option (DistMap × List PQEntry)
  | [], dist, pq => some (dist, pq)
  | (next_node, segment_id, length) :: rest, dist, pq =>
    if forbidden.contains segment_id then relaxAll segs forbidden allowed d p rest dist pq
    else
      match findSeg segs segment_id with
      | none => none
      | some seg =>
        if !allowed.isEmpty && !(allowed.contains seg.name) then
          relaxAll segs forbidden allowed d p rest dist pq
        else
          let new_dist := d + length
          let new_path := p ++ [segment_id]
          match dlookup dist next_node with
          | none => none
          | some (dv, _) =>
            if ltDistV new_dist dv then
              relaxAll segs forbidden allowed d p rest
                (dupdate dist next_node (some new_dist, new_path))
                ((new_dist, next_node, new_path) :: pq)
            else relaxAll segs forbidden allowed d p rest dist pq

/-- The `while pq and len(found_targets) < len(target_nodes)` loop.
`fuel` bounds the number of iterations; exhaustion is reported as `none`
so that no theorem mistakes a truncated run for a finished one. -/
def dijkstraLoop (segs : List TaxiSegment) (graph : GraphT)
    (targets forbidden allowed : List String) :
    ℕ → DistMap → List PQEntry → List String → Option DistMap
  | fuel, dist, pq, found =>
    if pq.isEmpty || !(found.length < targets.length : Bool) then some dist
    else
      match fuel with
      | 0 => none
      | fuel' + 1 =>
        match popMin pq with
        | none => some dist
        | some ((d, current, p), pq') =>
          let found' :=
            if targets.contains current then insertNew found current else found
          match dlookup dist current with
          | none => none
          | some (du, _) =>
            if gtDistV d du then
              dijkstraLoop segs graph targets forbidden allowed fuel' dist pq' found'
            else
              match slookup graph current with
              | none => none
              | some adj =>
                match relaxAll segs forbidden allowed d p adj dist pq' with
                | none => none
                | some (dist', pq'') =>
                  dijkstraLoop segs graph targets forbidden allowed fuel' dist' pq'' found'

/-- `distances` initialisation: every graph key at `(inf, [])`, then the
start nodes that are graph keys at `(0, [])`. -/
def initDistances (graph : GraphT) (starts : List String) : DistMap :=
  starts.foldl
    (fun dm s =>
      if (graph.find? (fun kv => kv.1 == s)).isSome then dupdate dm s (some 0, []) else dm)
    (graph.map (fun kv => (kv.1, ((none : DistV), ([] : List String)))))

/-- The initial queue `[(0, start, []) for start in start_nodes if start
in self.graph]`. -/
def initPQ (graph : GraphT) (starts : List String) : List PQEntry :=
  starts.filterMap
    (fun s =>
      if (graph.find? (fun kv => kv.1 == s)).isSome then some ((0 : ℤ), s, ([] : List String))
      else none)

/-- `dijkstra_multi_target`. -/
def dijkstra_multi_target (segs : List TaxiSegment) (graph : GraphT) (fuel : ℕ)
    (start_nodes : List String) (target_nodes forbidden allowed : List String) :
    Option DistMap :=
  dijkstraLoop segs graph target_nodes forbidden allowed fuel
    (initDistances graph start_nodes) (initPQ graph start_nodes) []

/-! ## Per-leg selection and accumulation (`find_path` lines 318–374) -/

/-- The defensive re-check `valid_path`: every segment of a candidate
path exists and carries an allowed name (short-circuiting like the
source's loop; `none` = `StopIteration`). -/
def allNamesOk (segs : List TaxiSegment) (allowed : List String) :
    List String → Option Bool
  | [] => some true
  | sid :: rest =>
    match findSeg segs sid with
    | none => none
    | some s =>
      if allowed.contains s.name then allNamesOk segs allowed rest else some false

/-- The `for target_node in target_nodes` selection of the best
reachable, name-valid target. -/
def bestSelect (segs : List TaxiSegment) (allowed : List String) (dm : DistMap) :
    List String → DistV → Option (List String × String) →
    Option (DistV × Option (List String × String))
  | [], bd, bp => some (bd, bp)
  | t :: rest, bd, bp =>
    match dlookup dm t with
    | none => none
    | some (dv, sp) =>
      if ltDistVV dv bd then
        match allNamesOk segs allowed sp with
        | none => none
        | some true => bestSelect segs allowed dm rest dv (some (sp, t))
        | some false => bestSelect segs allowed dm rest bd bp
      else bestSelect segs allowed dm rest bd bp

/-- Append the chosen leg's segments to the path (`path.add_segment` per
segment, with the per-segment length lookup). -/
def appendSegs (segs : List TaxiSegment) : List String → TaxiPath → Option TaxiPath
  | [], p => some p
  | sid :: rest, p =>
    match findSeg segs sid with
    | none => none
    | some s => appendSegs segs rest (addSegment p sid s.length)

/-- The router's loop state: the accumulated path, the used-segment set,
the current anchor node, plus a transcript of the legs appended so far
(each leg records the waypoint pair it connected and the segment ids its
search returned, in order; the transcript repeats information already in
`path` and changes no behaviour). -/
structure LoopState : Type where
  path : TaxiPath
  used : List String
  last_node : String
  legs : List (String × String × List String)
deriving DecidableEq, Repr

/-- Target resolution for one leg: the enforced entrance node when the
movement is a departure heading to its last waypoint, else the generic
resolution of `get_segment_nodes`. -/
def legTargets (sbn : List (String × List TaxiSegment)) (rc : RunwayConfig)
    (mt : MovementType) (p0 plast next_waypoint : String) : List String :=
  get_segment_nodes sbn rc mt p0 plast next_waypoint
    (if mt = MovementType.departure ∧ next_waypoint = plast then
      (rc.entrances.find? (fun pr => next_waypoint == pr.1)).map (fun pr => pr.2)
    else none)

/-- One iteration of the main waypoint loop: run the constrained
Dijkstra search from the anchor towards the leg's targets and select
the best name-valid target.  Outer `none` = exception, `some none` = no
valid leg path (`find_path` then returns `None`),
`some (some (best_path, best_target))` = the leg's segments and reached
node. -/
def legStep (segs : List TaxiSegment) (sbn : List (String × List TaxiSegment))
    (graph : GraphT) (rc : RunwayConfig) (mt : MovementType) (p0 plast : String)
    (fuel : ℕ) (current_waypoint next_waypoint : String) (used : List String)
    (last_node : String) : Option (Option (List String × String)) :=
  match dijkstra_multi_target segs graph fuel [last_node]
      (legTargets sbn rc mt p0 plast next_waypoint) used
      [current_waypoint, next_waypoint] with
  | none => none
  | some dm =>
    match bestSelect segs [current_waypoint, next_waypoint] dm
        (legTargets sbn rc mt p0 plast next_waypoint) none none with
    | none => none
    | some (_, r) => some r

/-- The main waypoint loop (`while current_waypoint_idx < len(points) -
1`), one iteration per consecutive waypoint pair.  Outer `none` =
exception, `some none` = `return None` (no valid leg path). -/
def findLegs (segs : List TaxiSegment) (sbn : List (String × List TaxiSegment))
    (graph : GraphT) (rc : RunwayConfig) (mt : MovementType) (p0 plast : String)
    (fuel : ℕ) : List (String × String) → LoopState → Option (Option LoopState)
  | [], st => some (some st)
  | (current_waypoint, next_waypoint) :: rest, st =>
    match legStep segs sbn graph rc mt p0 plast fuel current_waypoint next_waypoint
        st.used st.last_node with
    | none => none
    | some none => some none
    | some (some (best_path, best_target)) =>
      match appendSegs segs best_path st.path with
      | none => none
      | some path' =>
        findLegs segs sbn graph rc mt p0 plast fuel rest
          { path := path'
            used := st.used ++ best_path
            last_node := best_target
            legs := st.legs ++ [(current_waypoint, next_waypoint, best_path)] }

/-! ## Initial and closing segments (`find_path` lines 266–316 and
376–411) -/

/-- Initial-segment selection.  Returns `none` exactly when
`segments_by_name` has no entry for the first waypoint (the source
prints and returns `None`). -/
def initialLeg (cfg : RouterConfig) (sbn : List (String × List TaxiSegment))
    (mt : MovementType) (p0 : String) : Option LoopState :=
  match (slookup sbn p0).getD [] with
  | [] => none
  | f0 :: fs =>
    let first_segments := f0 :: fs
    let gate_node : Option String :=
      match mt with
      | MovementType.departure => findGateNode p0 cfg.gates_terminals
      | MovementType.arrival => none
    let chosen : Option (TaxiSegment × String) :=
      match mt with
      | MovementType.departure =>
        match gate_node with
        | some gn =>
          if gn == "" then none
          else
            (first_segments.find?
               (fun seg => gn == seg.start_node || gn == seg.end_node)).map
              (fun seg => (seg, gn))
        | none => none
      | MovementType.arrival =>
        (first_segments.find? (fun seg => seg.segment_type == "runway")).map
          (fun seg => (seg, seg.end_node))
    let fp : TaxiSegment × String :=
      match chosen with
      | some x => x
      | none => (f0, f0.end_node)
    let first_segment := fp.1
    let first_node := fp.2
    let markUsed : Bool :=
      match mt, gate_node with
      | MovementType.departure, some gn => !(first_node == gn)
      | _, _ => true
    some
      { path := addSegment emptyPath first_segment.segment_id first_segment.length
        used := if markUsed then [first_segment.segment_id] else []
        last_node := first_node
        legs := [] }

/-- The closing segment the post-loop code appends, if any (`none` also
covers the silently skipped cases: untruthy configured node, no matching
segment). -/
def closingSegment (cfg : RouterConfig) (sbn : List (String × List TaxiSegment))
    (rc : RunwayConfig) (mt : MovementType) (plast last_node : String) :
    Option TaxiSegment :=
  match mt with
  | MovementType.departure =>
    match rc.entrances.find? (fun pr => plast == pr.1) with
    | none => none
    | some pr =>
      if pr.2 == "" then none
      else
        ((slookup sbn plast).getD []).find?
          (fun seg =>
            (pr.2 == seg.start_node || pr.2 == seg.end_node) &&
              (last_node == seg.start_node || last_node == seg.end_node))
  | MovementType.arrival =>
    match findGateNode plast cfg.gates_terminals with
    | none => none
    | some gn =>
      if gn == "" then none
      else
        ((slookup sbn plast).getD []).find?
          (fun seg =>
            (gn == seg.start_node || gn == seg.end_node) &&
              (last_node == seg.start_node || last_node == seg.end_node))

/-- Apply the closing step to the loop result. -/
def closeTail (cfg : RouterConfig) (sbn : List (String × List TaxiSegment))
    (rc : RunwayConfig) (mt : MovementType) (plast : String) (st : LoopState) : TaxiPath :=
  match closingSegment cfg sbn rc mt plast st.last_node with
  | some seg => addSegment st.path seg.segment_id seg.length
  | none => st.path

/-! ## `Airport.find_path` (lines 176–413) -/

/-- `find_path` over the router's data components.  After a successful
validation the renewed lookup of the active runway configuration cannot
fail (validation already performed it), so the `none` in that branch is
dead code kept only for shape. -/
def findPathImpl (cfg : RouterConfig) (sbn : List (String × List TaxiSegment))
    (segs : List TaxiSegment) (graph : GraphT) (airport_config : String) (fuel : ℕ)
    (points : List String) (mt : MovementType) : Option (Option TaxiPath) :=
  match validate_movement cfg airport_config mt points with
  | none => none
  | some false => some none
  | some true =>
    match slookup cfg.runway_configurations airport_config with
    | none => none
    | some rc =>
      match initialLeg cfg sbn mt (points.headD "") with
      | none => some none
      | some st0 =>
        match findLegs segs sbn graph rc mt (points.headD "") (points.getLastD "") fuel
            (points.zip points.tail) st0 with
        | none => none
        | some none => some none
        | some (some st) =>
          some (some (closeTail cfg sbn rc mt (points.getLastD "") st))

/-- `Airport.find_path`: a function of exactly the components the object
holds. -/
def find_path (fuel : ℕ) (a : Airport) (points : List String) (mt : MovementType) :
    Option (Option TaxiPath) :=
  findPathImpl a.config a.segments_by_name a.all_segments a.graph a.airport_config fuel
    points mt

/-- A routing call as a state transformer on the `Airport` object: the
method body contains no assignment to any `self` attribute (it only
reads `config`, `segments_by_name`, `all_segments`, `graph` and
`airport_config`), so the object after the call is the object before
it. -/
def find_path_call (fuel : ℕ) (a : Airport) (points : List String) (mt : MovementType) :
    Airport × Option (Option TaxiPath) :=
  (a, find_path fuel a points mt)

/-! ## Indexer data model (`airport_process.py`) -/

/-- The `gate_info` dict attached to a gate node. -/
structure GateInfoRec : Type where
  gate_id : String
  heading : ℤ
  segment_id : String
deriving DecidableEq, Repr

/-- `Node` dataclass of the indexer.  Coordinates are stored as the
rounded deduplication key, in units of 10⁻⁷ (see `pyRound7`). -/
structure ProcNode : Type where
  node_id : String
  coordinates : ℤ × ℤ
  connected_segments : List String
  node_type : String
  gate_info : Option GateInfoRec
deriving DecidableEq, Repr

/-- `Segment` dataclass of the indexer. -/
structure ProcSegment : Type where
  segment_id : String
  start_node : String
  end_node : String
  geometry : List (ℚ × ℚ)
  segment_type : String
  name : String
  length : ℤ
  heading : ℤ
deriving DecidableEq, Repr

/-- One entry of `self.gates`. -/
structure GateEntry : Type where
  node_id : String
  coordinates : ℤ × ℤ
  heading : ℤ
  segment_id : String
deriving DecidableEq, Repr

/-- One value of `config_data['parking_positions']`. -/
structure ParkingPos : Type where
  exit_taxiway : Option String
deriving DecidableEq, Repr

/-! ## Coordinate rounding (`_round_point`, lines 163–165) -/

/-- Floor division of an integer by a positive natural, by explicit sign
split (kept elementary so the kernel can evaluate it). -/
def floorDivNat (n : ℤ) (d : ℕ) : ℤ :=
  match n with
  | Int.ofNat m => Int.ofNat (m / d)
  | Int.negSucc m => -(((m + d) / d : ℕ) : ℤ)

/-- Parity test on `ℤ` by constructor. -/
def intEven (n : ℤ) : Bool :=
  match n with
  | Int.ofNat m => m % 2 == 0
  | Int.negSucc m => (m + 1) % 2 == 0

/-- Round-half-to-even of `x * scale` to an integer: Python's `round`
applied to an exact rational.  (`round(float, 7)` on a binary float is
idealised here by exact arithmetic on `ℚ`.) -/
def roundHalfEvenScaled (x : ℚ) (scale : ℕ) : ℤ :=
  let n : ℤ := x.num * (scale : ℤ)
  let d : ℕ := x.den
  let f : ℤ := floorDivNat n d
  let r : ℤ := n - (d : ℤ) * f
  if 2 * r < (d : ℤ) then f
  else if (d : ℤ) < 2 * r then f + 1
  else if intEven f then f else f + 1

/-- `round(v, 7)` represented by the scaled integer `round(v * 10^7)`:
two coordinates are equal after rounding to 7 decimal digits iff their
scaled integers are equal. -/
def pyRound7 (x : ℚ) : ℤ := roundHalfEvenScaled x 10000000

/-- `_round_point`: the deduplication key of a candidate point. -/
def roundPoint (p : ℚ × ℚ) : ℤ × ℤ := (pyRound7 p.1, pyRound7 p.2)

/-! ## Node creation (`_create_network`, lines 117–154) -/

/-- An input LineString. -/
structure GeoLine : Type where
  coords : List (ℚ × ℚ)
deriving DecidableEq, Repr

/-- The two endpoints a line contributes to the candidate-point list
(`Point(geom.coords[0]), Point(geom.coords[-1])`). -/
def lineEndpoints (l : GeoLine) : List (ℚ × ℚ) :=
  [l.coords.headD (0, 0), l.coords.getLastD (0, 0)]

/-- The full candidate-point list: every line's endpoints in input
order, then the pairwise intersection points.  Point intersections come
from floating-point geometry (`shapely`), so they are an input here, not
recomputed. -/
def candidatePoints (lines : List GeoLine) (intersections : List (ℚ × ℚ)) :
    List (ℚ × ℚ) :=
  lines.foldl (fun acc l => acc ++ lineEndpoints l) [] ++ intersections

/-- `f"N{len(unique_points):05d}"`. -/
def zeroPad (w : ℕ) (s : String) : String :=
  if s.length < w then String.mk (List.replicate (w - s.length) '0') ++ s else s

/-- Node id of the `n`-th created node. -/
def nodeIdStr (n : ℕ) : String := "N" ++ zeroPad 5 (toString n)

/-- The node-creation loop of `_create_network` (lines 142–154): fold
over the candidate points, keyed by the rounded coordinate, ids in
discovery order. -/
def createNodes (pts : List (ℚ × ℚ)) : List ProcNode :=
  pts.foldl
    (fun acc pt =>
      let key := roundPoint pt
      if acc.any (fun n => n.coordinates == key) then acc
      else
        acc ++ [{ node_id := nodeIdStr acc.length, coordinates := key,
                  connected_segments := [], node_type := "intersection",
                  gate_info := none }])
    []

/-- Nodes created by `_create_network` from the given lines and
intersection points. -/
def networkNodes (lines : List GeoLine) (intersections : List (ℚ × ℚ)) :
    List ProcNode :=
  createNodes (candidatePoints lines intersections)

/-! ## Node classification (`_identify_special_nodes`, lines 242–279) -/

/-- `self.runway_points` from `AirportProcessor.__init__`. -/
def lfpoRunwayPoints : List String :=
  ["W34", "W35", "W36", "W37", "W4", "W41", "W42", "W43", "W44"]

/-- `self.nodes[nid].node_type = ty`; `none` models the `KeyError` on an
unknown node id. -/
def setNodeType (nodes : List ProcNode) (nid ty : String) : Option (List ProcNode) :=
  if nodes.any (fun n => n.node_id == nid) then
    some (nodes.map (fun n => if n.node_id == nid then { n with node_type := ty } else n))
  else none

/-- The guarded variant used by the parking-exit pass: assign only while
the current role is `intersection`. -/
def setNodeTypeIfIntersection (nodes : List ProcNode) (nid ty : String) :
    Option (List ProcNode) :=
  if nodes.any (fun n => n.node_id == nid) then
    some
      (nodes.map
        (fun n =>
          if n.node_id == nid && n.node_type == "intersection" then
            { n with node_type := ty }
          else n))
  else none

/-- First pass: runway-exit marking (unconditional on the current
role). -/
def identifyPass1 (runway_points : List String) :
    List (String × ProcSegment) → List ProcNode → Option (List ProcNode)
  | [], nodes => some nodes
  | (_, seg) :: rest, nodes =>
    if runway_points.contains seg.name then
      match setNodeType nodes seg.start_node "runway_exit" with
      | none => none
      | some n1 =>
        match setNodeType n1 seg.end_node "runway_exit" with
        | none => none
        | some n2 => identifyPass1 runway_points rest n2
    else identifyPass1 runway_points rest nodes

/-- The `parking_exits` set: truthy `exit_taxiway` values of the
configured parking positions, in insertion order. -/
def parkingExitNames (positions : List (String × ParkingPos)) : List String :=
  positions.foldl
    (fun acc kv =>
      match kv.2.exit_taxiway with
      | some t => if t != "" then insertNew acc t else acc
      | none => acc)
    []

/-- Second pass: parking-exit marking (only over nodes still typed
`intersection`). -/
def identifyPass2 (parking_exits : List String) :
    List (String × ProcSegment) → List ProcNode → Option (List ProcNode)
  | [], nodes => some nodes
  | (_, seg) :: rest, nodes =>
    if parking_exits.contains seg.name then
      match setNodeTypeIfIntersection nodes seg.start_node "parking_exit" with
      | none => none
      | some n1 =>
        match setNodeTypeIfIntersection n1 seg.end_node "parking_exit" with
        | none => none
        | some n2 => identifyPass2 parking_exits rest n2
    else identifyPass2 parking_exits rest nodes

/-- Python dict assignment `d[k] = v` (replace or append). -/
def dictInsert {α : Type} (d : List (String × α)) (k : String) (v : α) :
    List (String × α) :=
  if d.any (fun kv => kv.1 == k) then
    d.map (fun kv => if kv.1 == k then (k, v) else kv)
  else d ++ [(k, v)]

/-- Third pass: gate detection over all nodes in order.  A node with a
single incident segment of type `parking_position` is set to role
`gate` unconditionally, its `gate_info` is attached, and the gate index
is updated under the segment's name. -/
def identifyPass3 (segs : List (String × ProcSegment)) :
    List ProcNode → List (String × GateEntry) →
    Option (List ProcNode × List (String × GateEntry))
  | [], gates => some ([], gates)
  | n :: rest, gates =>
    match n.connected_segments with
    | [sid] =>
      match slookup segs sid with
      | none => none
      | some seg =>
        if seg.segment_type == "parking_position" then
          match identifyPass3 segs rest
              (dictInsert gates seg.name
                { node_id := n.node_id, coordinates := n.coordinates,
                  heading := seg.heading, segment_id := seg.segment_id }) with
          | none => none
          | some (ns, gs) =>
            let gi : GateInfoRec :=
              { gate_id := seg.name, heading := seg.heading,
                segment_id := seg.segment_id }
            some ({ n with node_type := "gate", gate_info := some gi } :: ns, gs)
        else
          match identifyPass3 segs rest gates with
          | none => none
          | some (ns, gs) => some (n :: ns, gs)
    | _ =>
      match identifyPass3 segs rest gates with
      | none => none
      | some (ns, gs) => some (n :: ns, gs)

/-- `_identify_special_nodes`: the three passes in source order, from an
empty gate index. -/
def identify_special_nodes (runway_points : List String)
    (positions : List (String × ParkingPos)) (segs : List (String × ProcSegment))
    (nodes : List ProcNode) : Option (List ProcNode × List (String × GateEntry)) :=
  match identifyPass1 runway_points segs nodes with
  | none => none
  | some n1 =>
    match identifyPass2 (parkingExitNames positions) segs n1 with
    | none => none
    | some n2 => identifyPass3 segs n2 []

/-! ## The persisted-configuration contract (`export_config`, lines
331–387, against `validate_movement` / `get_segment_nodes`) -/

/-- Minimal JSON value universe for the runway-configuration lists. -/
inductive JVal : Type
  | jstr (s : String)
  | jarr (l : List JVal)

/-- CPython unpacking `a, b = v` of one iterated element: succeeds for a
two-element sequence (a two-character string unpacks into its two
characters), raises `ValueError`/`TypeError` otherwise — this is the
operation `for exit_name, exit_node in runway_config['exits']` performs
on every list entry. -/
def pyUnpack2 : JVal → Option (JVal × JVal)
  | JVal.jstr s =>
    match s.data with
    | [a, b] => some (JVal.jstr (String.mk [a]), JVal.jstr (String.mk [b]))
    | _ => none
  | JVal.jarr [a, b] => some (a, b)
  | JVal.jarr _ => none

/-- Iterate a JSON list, unpacking every element into a pair; `none` as
soon as one element fails to unpack (the loop raises). -/
def unpackPairs (l : List JVal) : Option (List (JVal × JVal)) :=
  l.mapM pyUnpack2

/-- The static `runway_configs` literal `export_config` writes
(lines 346–367): `entrances` and `exits` are plain name strings. -/
structure ExportedRunwayConfig : Type where
  departure : String
  arrival : String
  entrances : List String
  exits : List String
  alt_departure : String
  alt_arrival : String
deriving DecidableEq, Repr

/-- The exported `runway_configurations` section. -/
def exportedRunwayConfigurations : List (String × ExportedRunwayConfig) :=
  [ ("WEST",
     { departure := "24", arrival := "25",
       entrances := ["W41", "W42"],
       exits := ["W34", "W35", "W4", "W36", "W37"],
       alt_departure := "06", alt_arrival := "07" }),
    ("EAST",
     { departure := "07", arrival := "06",
       entrances := ["W37", "W36"],
       exits := ["W44", "W43", "W42", "W41"],
       alt_departure := "24", alt_arrival := "25" }) ]

/-- The `exits` list of an exported configuration as the JSON value the
router re-reads. -/
def exportedExitsJson (c : ExportedRunwayConfig) : List JVal :=
  c.exits.map JVal.jstr

/-- The `entrances` list of an exported configuration as the JSON value
the router re-reads. -/
def exportedEntrancesJson (c : ExportedRunwayConfig) : List JVal :=
  c.entrances.map JVal.jstr

/-! ## Helper notions for the statements -/

/-- Keep-first deduplication of rounded coordinate keys (the key order
a Python dict built by repeated conditional insertion exhibits). -/
def firstDedup (l : List (ℤ × ℤ)) : List (ℤ × ℤ) :=
  l.foldl (fun acc x => if x ∈ acc then acc else acc ++ [x]) []

/-- Well-formedness of a router graph with respect to a segment list:
every adjacency entry is one direction of a listed segment, carrying its
id and length.  `Airport._load_data` establishes this whenever the
exported segment ids are distinct. -/
def WFGraph (segs : List TaxiSegment) (graph : GraphT) : Prop :=
  ∀ k adj, slookup graph k = some adj →
    ∀ e ∈ adj, ∃ s : TaxiSegment, findSeg segs e.2.1 = some s ∧ e.2.2 = s.length ∧
      ((k = s.start_node ∧ e.1 = s.end_node) ∨ (k = s.end_node ∧ e.1 = s.start_node))

/-! ## Concrete sample data for witnesses and counterexamples -/

/-- A minimal configuration: one runway configuration `WEST` with a
single entrance `W` pinned to node `ne`, and one gate `G1` at node
`ng`. -/
def sampleConfig : RouterConfig :=
  { runway_configurations :=
      [("WEST",
        { departure := "24", arrival := "25", entrances := [("W", "ne")], exits := [] })]
    gates_terminals := [("G", [{ gate_id := "G1", node_id := "ng" }])] }

/-- Three chained segments: gate stub `G1`, taxiway `A`, taxiway `W`
ending at the configured entrance node. -/
def sampleFeatures : List GeoFeature :=
  [ { geom_type := "LineString", name := some "G1", segment_id := "S0",
      start_node := "ng", end_node := "n1", length := 1,
      segment_type := some "parking_position" },
    { geom_type := "LineString", name := some "A", segment_id := "S1",
      start_node := "n1", end_node := "n2", length := 1,
      segment_type := some "taxiway" },
    { geom_type := "LineString", name := some "W", segment_id := "S2",
      start_node := "n2", end_node := "ne", length := 1,
      segment_type := some "taxiway" } ]

/-- The loaded sample airport. -/
def sampleAirport : Airport :=
  loadAirport "LFPO.geojson" "LFPO.json" sampleConfig sampleFeatures "WEST"

/-- The same data under different file names. -/
def sampleAirportAltFiles : Airport :=
  loadAirport "copy.geojson" "copy.json" sampleConfig sampleFeatures "WEST"

/-- A variant with no segment named `W` at all: taxiway `A` runs
directly into the configured entrance node `ne`. -/
def sampleFeaturesNoW : List GeoFeature :=
  [ { geom_type := "LineString", name := some "G1", segment_id := "S0",
      start_node := "ng", end_node := "n1", length := 1,
      segment_type := some "parking_position" },
    { geom_type := "LineString", name := some "A", segment_id := "S1",
      start_node := "n1", end_node := "ne", length := 1,
      segment_type := some "taxiway" } ]

/-- The loaded no-`W` airport. -/
def sampleAirportNoW : Airport :=
  loadAirport "LFPO.geojson" "LFPO.json" sampleConfig sampleFeaturesNoW "WEST"

/-- A configuration for arrivals: runway exit `R` at node `n2`, and
gate `G1` configured with an untruthy (empty) node id, so the closing
gate-segment scan is skipped. -/
def sampleConfigArr : RouterConfig :=
  { runway_configurations :=
      [("WEST",
        { departure := "24", arrival := "25", entrances := [],
          exits := [("R", "n2")] })]
    gates_terminals := [("G", [{ gate_id := "G1", node_id := "" }])] }

/-- Runway `R`, taxiway `A` and parking stub `G1` chained together for
an arrival route. -/
def sampleFeaturesArr : List GeoFeature :=
  [ { geom_type := "LineString", name := some "R", segment_id := "R0",
      start_node := "rn", end_node := "n2", length := 1,
      segment_type := some "runway" },
    { geom_type := "LineString", name := some "A", segment_id := "A1",
      start_node := "n2", end_node := "n1", length := 1,
      segment_type := some "taxiway" },
    { geom_type := "LineString", name := some "G1", segment_id := "G2",
      start_node := "n1", end_node := "ng", length := 1,
      segment_type := some "parking_position" } ]

/-- The loaded arrival sample airport. -/
def sampleAirportArr : Airport :=
  loadAirport "LFPO.geojson" "LFPO.json" sampleConfigArr sampleFeaturesArr "WEST"

/-- A feature list mixing kept and dropped features: a named LineString,
an empty-named LineString (the indexer's default for a missing `ref`
tag), a LineString without a `name` key, and a Point feature. -/
def mixedFeatures : List GeoFeature :=
  [ { geom_type := "LineString", name := some "A", segment_id := "S1",
      start_node := "n1", end_node := "n2", length := 1,
      segment_type := some "taxiway" },
    { geom_type := "LineString", name := some "", segment_id := "S8",
      start_node := "n8", end_node := "n9", length := 1,
      segment_type := some "taxiway" },
    { geom_type := "LineString", name := none, segment_id := "S9",
      start_node := "n7", end_node := "n8", length := 1,
      segment_type := none },
    { geom_type := "Point", name := some "B", segment_id := "S10",
      start_node := "n2", end_node := "n3", length := 1,
      segment_type := some "taxiway" } ]

/-- Two sample input lines that share the point `x = 1/3, y = 0` up to
7-digit rounding without sharing it exactly. -/
def sampleLines : List GeoLine :=
  [ { coords := [(mkRat 1 3, 0), (1, 1)] },
    { coords := [(mkRat 3333333 10000000, 0), (2, 0)] } ]

/-- Classifier sample: a dead-end parking segment whose name is also in
the runway-point set, so the runway-exit pass claims its nodes first. -/
def classifierSegs : List (String × ProcSegment) :=
  [ ("P0",
     { segment_id := "P0", start_node := "N0", end_node := "N1", geometry := [],
       segment_type := "parking_position", name := "W34", length := 5, heading := 90 }),
    ("T0",
     { segment_id := "T0", start_node := "N1", end_node := "N2", geometry := [],
       segment_type := "taxiway", name := "B", length := 7, heading := 180 }) ]

/-- Classifier sample nodes. -/
def classifierNodes : List ProcNode :=
  [ { node_id := "N0", coordinates := (0, 0), connected_segments := ["P0"],
      node_type := "intersection", gate_info := none },
    { node_id := "N1", coordinates := (1, 0), connected_segments := ["P0", "T0"],
      node_type := "intersection", gate_info := none },
    { node_id := "N2", coordinates := (2, 0), connected_segments := ["T0"],
      node_type := "intersection", gate_info := none } ]

/-! ## Dijkstra invariants for the no-reuse analysis (C4)

The stored-path properties below follow the per-call search state:
`DWalk` is the statement that a recorded segment path can be traced
through the well-formed graph from a start node while every visited
node already holds a stored distance no larger than the walk's cost at
that visit. -/

/-- Cost of a recorded segment-id path under a segment list (dangling
ids count zero; they never occur in the walks the invariant tracks). -/
def walkCost (segs : List TaxiSegment) : List String → ℤ
  | [] => 0
  | sid :: rest =>
    (match findSeg segs sid with
     | some s => s.length
     | none => 0) + walkCost segs rest

/-- The distance stored for `u` is defined (finite) and at most `c`. -/
def dLeP (dist : DistMap) (u : String) (c : ℤ) : Prop :=
  ∃ pr, dlookup dist u = some pr ∧ ∃ x, pr.1 = some x ∧ x ≤ c

/-- A traceable walk: starting at `u` with accumulated cost `c`, the
segment ids chain through the segment table to `w`, and every visited
node's stored distance is at most the accumulated cost there. -/
inductive DWalk (segs : List TaxiSegment) (dist : DistMap) :
    String → ℤ → List String → String → Prop
  | nil (u : String) (c : ℤ) : dLeP dist u c → DWalk segs dist u c [] u
  | step (u : String) (c : ℤ) (sid : String) (s : TaxiSegment) (v w : String)
      (rest : List String) :
      findSeg segs sid = some s →
      ((u = s.start_node ∧ v = s.end_node) ∨ (u = s.end_node ∧ v = s.start_node)) →
      dLeP dist u c →
      DWalk segs dist v (c + s.length) rest w →
      DWalk segs dist u c (sid :: rest) w

/-- Validity of a queue entry `(d, node, path)`. -/
def ValidEntry (segs : List TaxiSegment) (dist : DistMap)
    (starts forbidden : List String) (e : PQEntry) : Prop :=
  e.1 = walkCost segs e.2.2 ∧ e.2.2.Nodup ∧ (∀ sid ∈ e.2.2, sid ∉ forbidden) ∧
  ∃ st ∈ starts, DWalk segs dist st 0 e.2.2 e.2.1

/-- Validity of the whole distance map: every defined entry is either
still untouched (`(∞, [])`) or holds a duplicate-free, forbidden-free
traceable path whose cost it records. -/
def StoredOk (segs : List TaxiSegment) (dist : DistMap)
    (starts forbidden : List String) : Prop :=
  ∀ u pr, dlookup dist u = some pr →
    pr = (none, []) ∨
    (pr.1 = some (walkCost segs pr.2) ∧ pr.2.Nodup ∧
      (∀ sid ∈ pr.2, sid ∉ forbidden) ∧ ∃ st ∈ starts, DWalk segs dist st 0 pr.2 u)

/-- Pointwise refinement of distance maps: the newer map keeps every
key and stores no larger finite distance. -/
def distLeP (d1 d2 : DistMap) : Prop :=
  ∀ u pr2, dlookup d2 u = some pr2 →
    ∃ pr1, dlookup d1 u = some pr1 ∧
      ∀ x2, pr2.1 = some x2 → ∃ x1, pr1.1 = some x1 ∧ x1 ≤ x2

/-- Boolean well-formedness check matching `WFGraph` on concrete data. -/
def WFGraphB (segs : List TaxiSegment) (graph : GraphT) : Bool :=
  graph.all (fun kv => kv.2.all (fun e =>
    match findSeg segs e.2.1 with
    | none => false
    | some s =>
      (e.2.2 == s.length) &&
        ((kv.1 == s.start_node && e.1 == s.end_node) ||
         (kv.1 == s.end_node && e.1 == s.start_node))))

/-! ## Theorems -/

/-- C1: the spec claims the persisted runway configurations store
entrances and exits as `(name, node)` pairs that the router can unpack.
In the code the exporter writes bare name strings (`"W34"`, …), so
unpacking any exported entry as a two-element pair fails (`ValueError`
in Python, `none` here): for every exported configuration, both the
exits list and the entrances list fail pair-unpacking. -/
theorem C1_persisted_contract_pair_unpacking_fails :
    pyUnpack2 (JVal.jstr "W34") = none ∧
    exportedRunwayConfigurations.map
        (fun kv => (unpackPairs (exportedExitsJson kv.2),
                    unpackPairs (exportedEntrancesJson kv.2)))
      = [(none, none), (none, none)] :=
  ⟨rfl, rfl⟩

theorem any_fst_eq_false {wp : String} {l : List (String × String)}
    (h : wp ∉ l.map Prod.fst) : l.any (fun pr => wp == pr.1) = false := by
  by_contra hne
  rw [Bool.not_eq_false, List.any_eq_true] at hne
  obtain ⟨pr, hpr, hbe⟩ := hne
  rw [beq_iff_eq] at hbe
  exact h (hbe ▸ List.mem_map_of_mem Prod.fst hpr)

theorem validate_short (cfg : RouterConfig) (ac : String) (mt : MovementType)
    (points : List String) (h : points.length < 2) :
    validate_movement cfg ac mt points = some false := by
  simp [validate_movement, h]

theorem validate_arrival_exit (cfg : RouterConfig) (ac : String)
    (points : List String) (rc : RunwayConfig)
    (hrc : slookup cfg.runway_configurations ac = some rc)
    (hmem : points.headD "" ∉ rc.exits.map Prod.fst) :
    validate_movement cfg ac MovementType.arrival points = some false := by
  by_cases hlen : points.length < 2
  · simp [validate_movement, hlen]
  · unfold validate_movement
    rw [if_neg hlen]
    show (match slookup cfg.runway_configurations ac with
      | none => none
      | some rc =>
        if rc.exits.any (fun pr => points.headD "" == pr.1) then
          if gateFound cfg (points.getLastD "") then some true else some false
        else some false) = some false
    rw [hrc]
    show (if rc.exits.any (fun pr => points.headD "" == pr.1) then
        if gateFound cfg (points.getLastD "") then some true else some false
      else some false) = some false
    rw [any_fst_eq_false hmem]
    simp

theorem validate_departure_entrance (cfg : RouterConfig) (ac : String)
    (points : List String) (rc : RunwayConfig)
    (hrc : slookup cfg.runway_configurations ac = some rc)
    (hmem : points.getLastD "" ∉ rc.entrances.map Prod.fst) :
    validate_movement cfg ac MovementType.departure points = some false := by
  by_cases hlen : points.length < 2
  · simp [validate_movement, hlen]
  · unfold validate_movement
    rw [if_neg hlen]
    show (if gateFound cfg (points.headD "") then
        match slookup cfg.runway_configurations ac with
        | none => none
        | some rc =>
          if rc.entrances.any (fun pr => points.getLastD "" == pr.1) then some true
          else some false
      else some false) = some false
    by_cases hgf : gateFound cfg (points.headD "")
    · rw [if_pos hgf, hrc]
      show (if rc.entrances.any (fun pr => points.getLastD "" == pr.1) then some true
        else some false) = some false
      rw [any_fst_eq_false hmem]
      simp
    · rw [if_neg hgf]

theorem validate_arrival_gate (cfg : RouterConfig) (ac : String)
    (points : List String) (rc : RunwayConfig)
    (hrc : slookup cfg.runway_configurations ac = some rc)
    (hg : gateFound cfg (points.getLastD "") = false) :
    validate_movement cfg ac MovementType.arrival points = some false := by
  by_cases hlen : points.length < 2
  · simp [validate_movement, hlen]
  · unfold validate_movement
    rw [if_neg hlen]
    show (match slookup cfg.runway_configurations ac with
      | none => none
      | some rc =>
        if rc.exits.any (fun pr => points.headD "" == pr.1) then
          if gateFound cfg (points.getLastD "") then some true else some false
        else some false) = some false
    rw [hrc]
    show (if rc.exits.any (fun pr => points.headD "" == pr.1) then
        if gateFound cfg (points.getLastD "") then some true else some false
      else some false) = some false
    rw [hg]
    by_cases hany : (rc.exits.any (fun pr => points.headD "" == pr.1)) = true
    · rw [if_pos hany]
      simp
    · rw [if_neg hany]

theorem validate_departure_gate (cfg : RouterConfig) (ac : String)
    (points : List String) (hg : gateFound cfg (points.headD "") = false) :
    validate_movement cfg ac MovementType.departure points = some false := by
  by_cases hlen : points.length < 2
  · simp [validate_movement, hlen]
  · unfold validate_movement
    rw [if_neg hlen]
    show (if gateFound cfg (points.headD "") then
        match slookup cfg.runway_configurations ac with
        | none => none
        | some rc =>
          if rc.entrances.any (fun pr => points.getLastD "" == pr.1) then some true
          else some false
      else some false) = some false
    rw [hg]
    simp

/-- C2: `find_path` returns `None` (here `some none`) without routing
whenever `_validate_movement` rejects the request: fewer than two
waypoints, an arrival whose first waypoint is not a configured runway
exit, a departure whose last waypoint is not a configured runway
entrance, an arrival whose last waypoint is no known gate, or a
departure whose first waypoint is no known gate. -/
theorem C2_validation_gate (fuel : ℕ) (a : Airport) (points : List String)
    (mt : MovementType)
    (h :
      points.length < 2
      ∨ (mt = MovementType.arrival ∧
          ∃ rc, slookup a.config.runway_configurations a.airport_config = some rc ∧
            points.headD "" ∉ rc.exits.map Prod.fst)
      ∨ (mt = MovementType.departure ∧
          ∃ rc, slookup a.config.runway_configurations a.airport_config = some rc ∧
            points.getLastD "" ∉ rc.entrances.map Prod.fst)
      ∨ (mt = MovementType.arrival ∧
          (∃ rc, slookup a.config.runway_configurations a.airport_config = some rc) ∧
          gateFound a.config (points.getLastD "") = false)
      ∨ (mt = MovementType.departure ∧ gateFound a.config (points.headD "") = false)) :
    find_path fuel a points mt = some none := by
  have hv : validate_movement a.config a.airport_config mt points = some false := by
    rcases h with h | ⟨hmt, rc, hrc, hmem⟩ | ⟨hmt, rc, hrc, hmem⟩ |
      ⟨hmt, ⟨rc, hrc⟩, hg⟩ | ⟨hmt, hg⟩
    · exact validate_short _ _ _ _ h
    · exact hmt ▸ validate_arrival_exit _ _ _ rc hrc hmem
    · exact hmt ▸ validate_departure_entrance _ _ _ rc hrc hmem
    · exact hmt ▸ validate_arrival_gate _ _ _ rc hrc hg
    · exact hmt ▸ validate_departure_gate _ _ _ hg
  simp [find_path, findPathImpl, hv]

theorem C2_validation_gate_witness :
    (["V06"] : List String).length < 2 ∧
    find_path 5 sampleAirport ["V06"] MovementType.arrival = some none :=
  ⟨by decide,
   C2_validation_gate 5 sampleAirport ["V06"] MovementType.arrival (Or.inl (by decide))⟩

theorem allNamesOk_mem {segs : List TaxiSegment} {allowed : List String} :
    ∀ {l : List String}, allNamesOk segs allowed l = some true →
      ∀ sid ∈ l, ∃ s, findSeg segs sid = some s ∧ allowed.contains s.name = true := by
  intro l
  induction l with
  | nil => intro _ sid hsid; cases hsid
  | cons x xs ih =>
    intro h sid hsid
    cases hfind : findSeg segs x with
    | none => simp only [allNamesOk, hfind] at h; cases h
    | some s =>
      simp only [allNamesOk, hfind] at h
      by_cases hc : allowed.contains s.name = true
      · rw [if_pos hc] at h
        rcases List.mem_cons.mp hsid with rfl | hmem
        · exact ⟨s, hfind, hc⟩
        · exact ih h sid hmem
      · rw [if_neg hc] at h; cases h

theorem bestSelect_valid {segs : List TaxiSegment} {allowed : List String}
    {dm : DistMap} :
    ∀ {ts : List String} {bd : DistV} {acc : Option (List String × String)}
      {res : DistV × Option (List String × String)},
      bestSelect segs allowed dm ts bd acc = some res →
      (∀ bp bt, acc = some (bp, bt) → allNamesOk segs allowed bp = some true) →
      ∀ bp bt, res.2 = some (bp, bt) → allNamesOk segs allowed bp = some true := by
  intro ts
  induction ts with
  | nil =>
    intro bd acc res h hacc bp bt hres
    simp only [bestSelect] at h
    cases h
    exact hacc bp bt hres
  | cons t rest ih =>
    intro bd acc res h hacc bp bt hres
    cases hdl : dlookup dm t with
    | none => simp only [bestSelect, hdl] at h; cases h
    | some pr =>
      obtain ⟨dv, sp⟩ := pr
      simp only [bestSelect, hdl] at h
      by_cases hlt : ltDistVV dv bd = true
      · rw [if_pos hlt] at h
        cases hok : allNamesOk segs allowed sp with
        | none => rw [hok] at h; cases h
        | some b =>
          rw [hok] at h
          cases b with
          | true =>
            exact ih h (fun bp' bt' hacc' => by
              cases hacc'
              exact hok) bp bt hres
          | false => exact ih h hacc bp bt hres
      · rw [if_neg hlt] at h
        exact ih h hacc bp bt hres

theorem legStep_valid {segs : List TaxiSegment} {sbn : List (String × List TaxiSegment)}
    {graph : GraphT} {rc : RunwayConfig} {mt : MovementType} {p0 plast : String}
    {fuel : ℕ} {cw nw : String} {used : List String} {ln : String}
    {bp : List String} {bt : String}
    (h : legStep segs sbn graph rc mt p0 plast fuel cw nw used ln = some (some (bp, bt))) :
    allNamesOk segs [cw, nw] bp = some true := by
  unfold legStep at h
  split at h
  · cases h
  · split at h
    · cases h
    · rename_i dm hdm pr hbs
      cases h
      exact bestSelect_valid hbs (fun bp' bt' h' => by cases h') bp bt rfl

theorem findLegs_leg_valid {segs : List TaxiSegment}
    {sbn : List (String × List TaxiSegment)} {graph : GraphT} {rc : RunwayConfig}
    {mt : MovementType} {p0 plast : String} {fuel : ℕ} :
    ∀ {pairs : List (String × String)} {st0 st : LoopState},
      findLegs segs sbn graph rc mt p0 plast fuel pairs st0 = some (some st) →
      ∀ leg ∈ st.legs, leg ∈ st0.legs ∨
        allNamesOk segs [leg.1, leg.2.1] leg.2.2 = some true := by
  intro pairs
  induction pairs with
  | nil =>
    intro st0 st h leg hleg
    simp only [findLegs] at h
    cases h
    exact Or.inl hleg
  | cons pr rest ih =>
    intro st0 st h leg hleg
    obtain ⟨cw, nw⟩ := pr
    simp only [findLegs] at h
    split at h
    · cases h
    · cases h
    · rename_i bp bt hstep
      split at h
      · cases h
      · rename_i path' happ
        rcases ih h leg hleg with hmem | hval
        · rcases List.mem_append.mp hmem with hmem' | hmem'
          · exact Or.inl hmem'
          · rcases List.mem_singleton.mp hmem' with rfl
            exact Or.inr (legStep_valid hstep)
        · exact Or.inr hval

/-- C3: every segment of every leg recorded by the main waypoint loop
lies on one of the two taxiways the leg connects — each segment id of a
leg `(current_waypoint, next_waypoint, ids)` resolves in the segment
table to a segment whose `name` is `current_waypoint` or
`next_waypoint` (the `all(...)` filter in the leg search). -/
theorem C3_leg_name_containment (segs : List TaxiSegment)
    (sbn : List (String × List TaxiSegment)) (graph : GraphT) (rc : RunwayConfig)
    (mt : MovementType) (p0 plast : String) (fuel : ℕ)
    (pairs : List (String × String)) (st0 st : LoopState)
    (h0 : st0.legs = [])
    (h : findLegs segs sbn graph rc mt p0 plast fuel pairs st0 = some (some st)) :
    ∀ leg ∈ st.legs, ∀ sid ∈ leg.2.2,
      ∃ s, findSeg segs sid = some s ∧ (s.name = leg.1 ∨ s.name = leg.2.1) := by
  intro leg hleg sid hsid
  rcases findLegs_leg_valid h leg hleg with hmem | hval
  · rw [h0] at hmem; cases hmem
  · obtain ⟨s, hfind, hcont⟩ := allNamesOk_mem hval sid hsid
    refine ⟨s, hfind, ?_⟩
    have : s.name ∈ [leg.1, leg.2.1] := by
      simpa using hcont
    simpa using this

theorem C3_leg_name_containment_witness :
    (findLegs sampleAirport.all_segments sampleAirport.segments_by_name
        sampleAirport.graph
        { departure := "24", arrival := "25", entrances := [("W", "ne")], exits := [] }
        MovementType.departure "G1" "W" 30 [("G1", "A"), ("A", "W")]
        { path := { segments := ["S0"], total_distance := 1, waypoints := [] },
          used := [], last_node := "ng", legs := [] } =
      some (some
        { path := { segments := ["S0", "S0", "S1", "S2"], total_distance := 4,
                    waypoints := [] },
          used := ["S0", "S1", "S2"], last_node := "ne",
          legs := [("G1", "A", ["S0"]), ("A", "W", ["S1", "S2"])] })) ∧
    (∃ s, findSeg sampleAirport.all_segments "S2" = some s ∧
      (s.name = "A" ∨ s.name = "W")) := by
  refine ⟨by decide, ?_⟩
  exact C3_leg_name_containment sampleAirport.all_segments
    sampleAirport.segments_by_name sampleAirport.graph
    { departure := "24", arrival := "25", entrances := [("W", "ne")], exits := [] }
    MovementType.departure "G1" "W" 30 [("G1", "A"), ("A", "W")]
    { path := { segments := ["S0"], total_distance := 1, waypoints := [] },
      used := [], last_node := "ng", legs := [] }
    { path := { segments := ["S0", "S0", "S1", "S2"], total_distance := 4,
                waypoints := [] },
      used := ["S0", "S1", "S2"], last_node := "ne",
      legs := [("G1", "A", ["S0"]), ("A", "W", ["S1", "S2"])] }
    rfl (by decide) ("A", "W", ["S1", "S2"]) (by decide) "S2" (by decide)

/-- C5: `find_path` is a pure function of the router's loaded data —
two airports agreeing on `config`, `segments_by_name`, `all_segments`,
`graph` and `airport_config` produce identical results on every
request, whatever their other attributes (file paths) are. -/
theorem C5_determinism (fuel : ℕ) (points : List String) (mt : MovementType)
    (a1 a2 : Airport) (hc : a1.config = a2.config)
    (hs : a1.segments_by_name = a2.segments_by_name)
    (ha : a1.all_segments = a2.all_segments) (hg : a1.graph = a2.graph)
    (hac : a1.airport_config = a2.airport_config) :
    find_path fuel a1 points mt = find_path fuel a2 points mt := by
  unfold find_path
  rw [hc, hs, ha, hg, hac]

theorem C5_determinism_witness :
    sampleAirport.config = sampleAirportAltFiles.config ∧
    find_path 30 sampleAirport ["G1", "A", "W"] MovementType.departure =
      find_path 30 sampleAirportAltFiles ["G1", "A", "W"] MovementType.departure :=
  ⟨rfl, C5_determinism 30 ["G1", "A", "W"] MovementType.departure
    sampleAirport sampleAirportAltFiles rfl rfl rfl rfl rfl⟩

/-- C8: a routing call mutates nothing — the `find_path` body assigns
no object attribute, so the airport object after the call equals the
object before it and the result is exactly the pure `find_path`
value. -/
theorem C8_frame_property (fuel : ℕ) (a : Airport) (points : List String)
    (mt : MovementType) :
    (find_path_call fuel a points mt).1 = a ∧
    (find_path_call fuel a points mt).2 = find_path fuel a points mt :=
  ⟨rfl, rfl⟩

/-- C9: when no closing segment matches after the waypoint loop — for
a departure, the configured entrance node is untruthy or no segment of
the last taxiway touches both the entrance node and the current node;
analogously for an arrival's gate segment (untruthy configured gate
node or no matching last-waypoint segment) — `find_path` still returns
the accumulated path unchanged: the closing step is silently skipped,
not an error. -/
theorem C9_closing_silently_omitted (fuel : ℕ) (a : Airport) (points : List String)
    (mt : MovementType) (rc : RunwayConfig) (st0 st : LoopState)
    (hval : validate_movement a.config a.airport_config mt points = some true)
    (hrc : slookup a.config.runway_configurations a.airport_config = some rc)
    (hinit : initialLeg a.config a.segments_by_name mt
      (points.headD "") = some st0)
    (hlegs : findLegs a.all_segments a.segments_by_name a.graph rc
        mt (points.headD "") (points.getLastD "") fuel
        (points.zip points.tail) st0 = some (some st))
    (hclose : closingSegment a.config a.segments_by_name rc mt
        (points.getLastD "") st.last_node = none) :
    find_path fuel a points mt = some (some st.path) := by
  simp only [find_path, findPathImpl, hval, hrc, hinit, hlegs, closeTail, hclose]

theorem C9_closing_silently_omitted_witness :
    (closingSegment sampleAirportNoW.config sampleAirportNoW.segments_by_name
        { departure := "24", arrival := "25", entrances := [("W", "ne")], exits := [] }
        MovementType.departure "W" "ne" = none) ∧
    find_path 30 sampleAirportNoW ["G1", "A", "W"] MovementType.departure =
      some (some { segments := ["S0", "S0", "S1"], total_distance := 3,
                   waypoints := [] }) ∧
    (closingSegment sampleAirportArr.config sampleAirportArr.segments_by_name
        { departure := "24", arrival := "25", entrances := [], exits := [("R", "n2")] }
        MovementType.arrival "G1" "n1" = none) ∧
    find_path 30 sampleAirportArr ["R", "A", "G1"] MovementType.arrival =
      some (some { segments := ["R0", "A1"], total_distance := 2, waypoints := [] }) :=
  ⟨by decide,
   C9_closing_silently_omitted 30 sampleAirportNoW ["G1", "A", "W"]
    MovementType.departure
    { departure := "24", arrival := "25", entrances := [("W", "ne")], exits := [] }
    { path := { segments := ["S0"], total_distance := 1, waypoints := [] },
      used := [], last_node := "ng", legs := [] }
    { path := { segments := ["S0", "S0", "S1"], total_distance := 3, waypoints := [] },
      used := ["S0", "S1"], last_node := "ne",
      legs := [("G1", "A", ["S0"]), ("A", "W", ["S1"])] }
    (by decide) (by decide) (by decide) (by decide) (by decide),
   by decide,
   C9_closing_silently_omitted 30 sampleAirportArr ["R", "A", "G1"]
    MovementType.arrival
    { departure := "24", arrival := "25", entrances := [], exits := [("R", "n2")] }
    { path := { segments := ["R0"], total_distance := 1, waypoints := [] },
      used := ["R0"], last_node := "n2", legs := [] }
    { path := { segments := ["R0", "A1"], total_distance := 2, waypoints := [] },
      used := ["R0", "A1"], last_node := "n1",
      legs := [("R", "A", []), ("A", "G1", ["A1"])] }
    (by decide) (by decide) (by decide) (by decide) (by decide)⟩

/-- C4 (counterexample): the claim that a returned path never uses the
same segment twice is false.  On a concrete airport the departure
`G1 → A → W` returns the path `[S0, S0, S1, S2, S2]`: the closing
entrance segment `S2` repeats the final leg's segment, and the gate
segment `S0` (left out of `used_segments` because the path starts at
the gate node) is retraversed by the first leg. -/
theorem C4_no_segment_reuse_counterexample :
    find_path 30 sampleAirport ["G1", "A", "W"] MovementType.departure =
      some (some { segments := ["S0", "S0", "S1", "S2", "S2"], total_distance := 5,
                   waypoints := [] }) ∧
    (["S0", "S0", "S1", "S2", "S2"] : List String).count "S2" = 2 ∧
    ("S2" : String) ≠ "S0" := by
  refine ⟨by decide, by decide, by decide⟩

/-! C10 lemmas -/

theorem loadSegments_eq_filter (features : List GeoFeature) :
    loadSegments features =
      (features.filter featureKept).map (fun f => featureSegment f (f.name.getD "")) := by
  induction features with
  | nil => rfl
  | cons f rest ih =>
    simp only [loadSegments, List.filter_cons]
    cases hname : f.name with
    | none =>
      have hk : featureKept f = false := by
        simp [featureKept, hname]
      simp [hk, ih]
    | some nm =>
      by_cases hgeo : f.geom_type == "LineString"
      · by_cases hne : nm != ""
        · have hk : featureKept f = true := by
            simp only [featureKept, hname]
            rw [hgeo, hne]
            rfl
          simp [hgeo, hname, hne, hk, ih]
        · have hk : featureKept f = false := by
            simp only [featureKept, hname]
            rw [hgeo]
            simpa using hne
          simp [hgeo, hname, hne, hk, ih]
      · have hk : featureKept f = false := by
          simp only [featureKept]
          rw [Bool.eq_false_iff.mpr hgeo]
          rfl
        simp [hgeo, hk, ih]

theorem sbn_mem_invariant (P : TaxiSegment → String → Prop) :
    ∀ (segs : List TaxiSegment) (acc : List (String × List TaxiSegment)),
      (∀ kv ∈ acc, ∀ s ∈ kv.2, P s kv.1) → (∀ s ∈ segs, P s s.name) →
      ∀ kv ∈ segs.foldl sbnInsert acc, ∀ s ∈ kv.2, P s kv.1 := by
  intro segs
  induction segs with
  | nil => intro acc hacc _ kv hkv; exact hacc kv hkv
  | cons x xs ih =>
    intro acc hacc hsegs kv hkv
    refine ih (sbnInsert acc x) ?_ (fun s hs => hsegs s (List.mem_cons_of_mem x hs)) kv hkv
    intro kv' hkv' s hs
    unfold sbnInsert at hkv'
    by_cases hex : ((acc.find? (fun kv => kv.1 == x.name)).isSome : Bool) = true
    · rw [if_pos hex] at hkv'
      obtain ⟨old, hold, hmapped⟩ := List.mem_map.mp hkv'
      by_cases hkey : (old.1 == x.name) = true
      · rw [if_pos hkey] at hmapped
        subst hmapped
        rcases List.mem_append.mp hs with hs' | hs'
        · exact hacc old hold s hs'
        · have hx : s = x := List.mem_singleton.mp hs'
          subst hx
          show P s old.1
          rw [beq_iff_eq.mp hkey]
          exact hsegs s (List.mem_cons_self s xs)
      · rw [if_neg hkey] at hmapped
        subst hmapped
        exact hacc old hold s hs
    · rw [if_neg hex] at hkv'
      rcases List.mem_append.mp hkv' with hkv'' | hkv''
      · exact hacc kv' hkv'' s hs
      · have hkvx : kv' = (x.name, [x]) := List.mem_singleton.mp hkv''
        subst hkvx
        have hx : s = x := List.mem_singleton.mp hs
        subst hx
        exact hsegs s (List.mem_cons_self s xs)

theorem mem_addKey {g : GraphT} {k : String} {kv : String × List (String × String × ℤ)}
    (h : kv ∈ addKey g k) : kv ∈ g ∨ kv = (k, []) := by
  unfold addKey at h
  by_cases hex : ((g.find? (fun kv => kv.1 == k)).isSome : Bool) = true
  · rw [if_pos hex] at h; exact Or.inl h
  · rw [if_neg hex] at h
    rcases List.mem_append.mp h with h' | h'
    · exact Or.inl h'
    · exact Or.inr (List.mem_singleton.mp h')

theorem mem_addAdj {g : GraphT} {k : String} {e : String × String × ℤ}
    {kv : String × List (String × String × ℤ)} (h : kv ∈ addAdj g k e) :
    ∃ kv' ∈ g, kv.1 = kv'.1 ∧ (kv.2 = kv'.2 ∨ kv.2 = kv'.2 ++ [e]) := by
  unfold addAdj at h
  obtain ⟨old, hold, hmapped⟩ := List.mem_map.mp h
  by_cases hkey : (old.1 == k) = true
  · rw [if_pos hkey] at hmapped
    subst hmapped
    exact ⟨old, hold, rfl, Or.inr rfl⟩
  · rw [if_neg hkey] at hmapped
    subst hmapped
    exact ⟨old, hold, rfl, Or.inl rfl⟩

/-- Invariant transported through one `buildGraph` step. -/
theorem buildGraph_step_invariant (Q : String → Prop) (R : String × String × ℤ → Prop)
    {g : GraphT} {s : TaxiSegment}
    (hg : ∀ kv ∈ g, Q kv.1 ∧ ∀ e ∈ kv.2, R e)
    (hqs : Q s.start_node) (hqe : Q s.end_node)
    (hr1 : R (s.end_node, s.segment_id, s.length))
    (hr2 : R (s.start_node, s.segment_id, s.length)) :
    ∀ kv ∈ addAdj (addAdj (addKey (addKey g s.start_node) s.end_node)
        s.start_node (s.end_node, s.segment_id, s.length))
        s.end_node (s.start_node, s.segment_id, s.length),
      Q kv.1 ∧ ∀ e ∈ kv.2, R e := by
  have h1 : ∀ kv ∈ addKey (addKey g s.start_node) s.end_node,
      Q kv.1 ∧ ∀ e ∈ kv.2, R e := by
    intro kv hkv
    rcases mem_addKey hkv with hkv' | rfl
    · rcases mem_addKey hkv' with hkv'' | rfl
      · exact hg kv hkv''
      · exact ⟨hqs, fun e he => absurd he (List.not_mem_nil e)⟩
    · exact ⟨hqe, fun e he => absurd he (List.not_mem_nil e)⟩
  have h2 : ∀ kv ∈ addAdj (addKey (addKey g s.start_node) s.end_node)
      s.start_node (s.end_node, s.segment_id, s.length),
      Q kv.1 ∧ ∀ e ∈ kv.2, R e := by
    intro kv hkv
    obtain ⟨kv', hkv', hfst, hsnd⟩ := mem_addAdj hkv
    obtain ⟨hq, hr⟩ := h1 kv' hkv'
    refine ⟨hfst ▸ hq, ?_⟩
    rcases hsnd with hsnd | hsnd
    · intro e he; exact hr e (hsnd ▸ he)
    · intro e he
      rcases List.mem_append.mp (hsnd ▸ he) with he' | he'
      · exact hr e he'
      · have : e = (s.end_node, s.segment_id, s.length) := List.mem_singleton.mp he'
        exact this ▸ hr1
  intro kv hkv
  obtain ⟨kv', hkv', hfst, hsnd⟩ := mem_addAdj hkv
  obtain ⟨hq, hr⟩ := h2 kv' hkv'
  refine ⟨hfst ▸ hq, ?_⟩
  rcases hsnd with hsnd | hsnd
  · intro e he; exact hr e (hsnd ▸ he)
  · intro e he
    rcases List.mem_append.mp (hsnd ▸ he) with he' | he'
    · exact hr e he'
    · have : e = (s.start_node, s.segment_id, s.length) := List.mem_singleton.mp he'
      exact this ▸ hr2

theorem buildGraph_invariant (segs : List TaxiSegment) :
    ∀ kv ∈ buildGraph segs,
      (∃ s ∈ segs, kv.1 = s.start_node ∨ kv.1 = s.end_node) ∧
      ∀ e ∈ kv.2, ∃ s ∈ segs, e.2.1 = s.segment_id := by
  have main : ∀ (l : List TaxiSegment) (g : GraphT),
      (∀ kv ∈ g, (∃ s ∈ segs, kv.1 = s.start_node ∨ kv.1 = s.end_node) ∧
        ∀ e ∈ kv.2, ∃ s ∈ segs, e.2.1 = s.segment_id) →
      (∀ s ∈ l, s ∈ segs) →
      ∀ kv ∈ l.foldl (fun g s =>
          addAdj (addAdj (addKey (addKey g s.start_node) s.end_node)
            s.start_node (s.end_node, s.segment_id, s.length))
            s.end_node (s.start_node, s.segment_id, s.length)) g,
        (∃ s ∈ segs, kv.1 = s.start_node ∨ kv.1 = s.end_node) ∧
        ∀ e ∈ kv.2, ∃ s ∈ segs, e.2.1 = s.segment_id := by
    intro l
    induction l with
    | nil => intro g hg _ kv hkv; exact hg kv hkv
    | cons x xs ih =>
      intro g hg hsub kv hkv
      refine ih _ ?_ (fun s hs => hsub s (List.mem_cons_of_mem x hs)) kv hkv
      have hx : x ∈ segs := hsub x (List.mem_cons_self x xs)
      exact buildGraph_step_invariant
        (fun k => ∃ s ∈ segs, k = s.start_node ∨ k = s.end_node)
        (fun e => ∃ s ∈ segs, e.2.1 = s.segment_id) hg
        ⟨x, hx, Or.inl rfl⟩ ⟨x, hx, Or.inr rfl⟩ ⟨x, hx, rfl⟩ ⟨x, hx, rfl⟩
  intro kv hkv
  exact main segs [] (fun kv h => absurd h (List.not_mem_nil kv)) (fun s hs => hs) kv hkv

/-- C10: loading keeps exactly the `LineString` features carrying a
non-empty `name`; every loaded segment has a non-empty name, the
`segments_by_name` index maps each name to loaded segments bearing it,
and every graph node and edge comes from a loaded segment. -/
theorem C10_empty_name_filter (gf cf ac : String) (cfg : RouterConfig)
    (features : List GeoFeature) :
    (loadAirport gf cf cfg features ac).all_segments =
      (features.filter featureKept).map (fun f => featureSegment f (f.name.getD "")) ∧
    (∀ s ∈ (loadAirport gf cf cfg features ac).all_segments, ¬ s.name = "") ∧
    (∀ kv ∈ (loadAirport gf cf cfg features ac).segments_by_name, ∀ s ∈ kv.2,
      s ∈ (loadAirport gf cf cfg features ac).all_segments ∧ s.name = kv.1) ∧
    (∀ kv ∈ (loadAirport gf cf cfg features ac).graph,
      (∃ s ∈ (loadAirport gf cf cfg features ac).all_segments,
        kv.1 = s.start_node ∨ kv.1 = s.end_node) ∧
      ∀ e ∈ kv.2, ∃ s ∈ (loadAirport gf cf cfg features ac).all_segments,
        e.2.1 = s.segment_id) := by
  have hall : (loadAirport gf cf cfg features ac).all_segments =
      loadSegments features := rfl
  have hsbn : (loadAirport gf cf cfg features ac).segments_by_name =
      buildSegmentsByName (loadSegments features) := rfl
  have hgraph : (loadAirport gf cf cfg features ac).graph =
      buildGraph (loadSegments features) := rfl
  refine ⟨?_, ?_, ?_, ?_⟩
  · rw [hall]; exact loadSegments_eq_filter features
  · intro s hs
    rw [hall, loadSegments_eq_filter] at hs
    obtain ⟨f, hf, rfl⟩ := List.mem_map.mp hs
    have hk : featureKept f = true := List.of_mem_filter hf
    cases hname : f.name with
    | none =>
      rw [featureKept, hname] at hk
      simp at hk
    | some nm =>
      have hne : ¬ nm = "" := by
        rw [featureKept, hname] at hk
        rcases (Bool.and_eq_true _ _).mp hk with ⟨h1, h2⟩
        simpa using h2
      simpa [featureSegment, hname] using hne
  · rw [hsbn, hall]
    unfold buildSegmentsByName
    exact sbn_mem_invariant (fun s k => s ∈ loadSegments features ∧ s.name = k)
      (loadSegments features) [] (fun kv h => absurd h (List.not_mem_nil kv))
      (fun s hs => ⟨hs, rfl⟩)
  · rw [hgraph, hall]
    exact buildGraph_invariant (loadSegments features)

theorem C10_empty_name_filter_witness :
    ((loadAirport "g" "c" sampleConfig mixedFeatures "WEST").all_segments =
      [{ segment_id := "S1", name := "A", start_node := "n1", end_node := "n2",
         length := 1, segment_type := "taxiway" }]) ∧
    ¬ ({ segment_id := "S1", name := "A", start_node := "n1", end_node := "n2",
         length := 1, segment_type := "taxiway" } : TaxiSegment).name = "" :=
  ⟨by decide,
   (C10_empty_name_filter "g" "c" "WEST" sampleConfig mixedFeatures).2.1 _ (by decide)⟩

/-! C6 lemmas -/

theorem mem_foldDedup :
    ∀ (l acc : List (ℤ × ℤ)) (a : ℤ × ℤ),
      a ∈ l.foldl (fun acc x => if x ∈ acc then acc else acc ++ [x]) acc ↔
        a ∈ acc ∨ a ∈ l := by
  intro l
  induction l with
  | nil => intro acc a; simp
  | cons x xs ih =>
    intro acc a
    simp only [List.foldl_cons]
    by_cases hx : x ∈ acc
    · rw [if_pos hx, ih]
      simp only [List.mem_cons]
      constructor
      · rintro (h | h)
        · exact Or.inl h
        · exact Or.inr (Or.inr h)
      · rintro (h | h | h)
        · exact Or.inl h
        · exact Or.inl (h ▸ hx)
        · exact Or.inr h
    · rw [if_neg hx, ih]
      simp only [List.mem_append, List.mem_singleton, List.mem_cons]
      tauto

theorem nodup_foldDedup :
    ∀ (l acc : List (ℤ × ℤ)), acc.Nodup →
      (l.foldl (fun acc x => if x ∈ acc then acc else acc ++ [x]) acc).Nodup := by
  intro l
  induction l with
  | nil => intro acc h; exact h
  | cons x xs ih =>
    intro acc h
    simp only [List.foldl_cons]
    by_cases hx : x ∈ acc
    · rw [if_pos hx]; exact ih acc h
    · rw [if_neg hx]
      refine ih _ (List.nodup_append.mpr ⟨h, List.nodup_singleton x, ?_⟩)
      intro a ha hb
      have : a = x := List.mem_singleton.mp hb
      exact hx (this ▸ ha)

theorem firstDedup_nodup (l : List (ℤ × ℤ)) :
    (firstDedup l).Nodup :=
  nodup_foldDedup l [] List.nodup_nil

theorem mem_firstDedup (l : List (ℤ × ℤ)) (a : ℤ × ℤ) :
    a ∈ firstDedup l ↔ a ∈ l := by
  unfold firstDedup
  rw [mem_foldDedup]
  simp

theorem createNodes_coords :
    ∀ (pts : List (ℚ × ℚ)) (acc : List ProcNode),
      ((pts.foldl (fun acc pt =>
        let key := roundPoint pt
        if acc.any (fun n => n.coordinates == key) then acc
        else acc ++ [{ node_id := nodeIdStr acc.length, coordinates := key,
                       connected_segments := [], node_type := "intersection",
                       gate_info := none }]) acc).map (fun n => n.coordinates)) =
      ((pts.map roundPoint).foldl (fun ks k => if k ∈ ks then ks else ks ++ [k])
        (acc.map (fun n => n.coordinates))) := by
  intro pts
  induction pts with
  | nil => intro acc; rfl
  | cons p rest ih =>
    intro acc
    simp only [List.foldl_cons, List.map_cons]
    by_cases hm : roundPoint p ∈ acc.map (fun n => n.coordinates)
    · have hany : (acc.any (fun n => n.coordinates == roundPoint p)) = true := by
        rw [List.any_eq_true]
        obtain ⟨n, hn, hcoord⟩ := List.mem_map.mp hm
        exact ⟨n, hn, beq_iff_eq.mpr hcoord⟩
      rw [if_pos hany, if_pos hm]
      exact ih acc
    · have hany : (acc.any (fun n => n.coordinates == roundPoint p)) = false := by
        rw [List.any_eq_false]
        intro n hn
        simp only [beq_iff_eq]
        intro hEq
        exact hm (hEq ▸ List.mem_map_of_mem (fun n => n.coordinates) hn)
      rw [hany, if_neg hm]
      rw [ih]
      congr 1
      simp

theorem createNodes_ids :
    ∀ (pts : List (ℚ × ℚ)) (acc : List ProcNode),
      acc.map (fun n => n.node_id) = (List.range acc.length).map nodeIdStr →
      ((pts.foldl (fun acc pt =>
        let key := roundPoint pt
        if acc.any (fun n => n.coordinates == key) then acc
        else acc ++ [{ node_id := nodeIdStr acc.length, coordinates := key,
                       connected_segments := [], node_type := "intersection",
                       gate_info := none }]) acc).map (fun n => n.node_id)) =
      (List.range ((pts.foldl (fun acc pt =>
        let key := roundPoint pt
        if acc.any (fun n => n.coordinates == key) then acc
        else acc ++ [{ node_id := nodeIdStr acc.length, coordinates := key,
                       connected_segments := [], node_type := "intersection",
                       gate_info := none }]) acc).length)).map nodeIdStr := by
  intro pts
  induction pts with
  | nil => intro acc h; exact h
  | cons p rest ih =>
    intro acc h
    simp only [List.foldl_cons]
    by_cases hany : (acc.any (fun n => n.coordinates == roundPoint p)) = true
    · rw [if_pos hany]
      exact ih acc h
    · rw [if_neg hany]
      refine ih _ ?_
      rw [List.map_append, List.length_append, h]
      simp only [List.map_cons, List.map_nil, List.length_singleton]
      rw [List.range_succ]
      simp

theorem mem_candidate_endpoints {p : ℚ × ℚ} :
    ∀ (lines : List GeoLine) (acc : List (ℚ × ℚ)),
      ((∃ l ∈ lines, p ∈ lineEndpoints l) ∨ p ∈ acc) →
      p ∈ lines.foldl (fun acc l => acc ++ lineEndpoints l) acc := by
  intro lines
  induction lines with
  | nil =>
    intro acc h
    rcases h with ⟨l', hl', _⟩ | h
    · exact absurd hl' (List.not_mem_nil l')
    · exact h
  | cons x xs ih =>
    intro acc h
    simp only [List.foldl_cons]
    refine ih _ ?_
    rcases h with ⟨l', hl', hp'⟩ | h
    · rcases List.mem_cons.mp hl' with rfl | hl''
      · exact Or.inr (List.mem_append.mpr (Or.inr hp'))
      · exact Or.inl ⟨l', hl'', hp'⟩
    · exact Or.inr (List.mem_append.mpr (Or.inl h))

theorem countP_map_eq_one {α β : Type} [DecidableEq β] (f : α → β) :
    ∀ (l : List α) (b : β), (l.map f).Nodup → b ∈ l.map f →
      l.countP (fun a => decide (f a = b)) = 1 := by
  intro l
  induction l with
  | nil => intro b _ hb; exact absurd hb (List.not_mem_nil b)
  | cons x xs ih =>
    intro b hnd hb
    simp only [List.map_cons, List.nodup_cons] at hnd
    obtain ⟨hnotin, hnd'⟩ := hnd
    by_cases hx : f x = b
    · have hzero : xs.countP (fun a => decide (f a = b)) = 0 := by
        rw [List.countP_eq_zero]
        intro a ha
        simp only [decide_eq_true_eq]
        intro hEq
        exact hnotin (hx ▸ hEq ▸ List.mem_map_of_mem f ha)
      rw [List.countP_cons]
      simp [hx, hzero]
    · have hbx : b ∈ xs.map f := by
        simp only [List.map_cons] at hb
        rcases List.mem_cons.mp hb with h | h
        · exact absurd h.symm hx
        · exact h
      rw [List.countP_cons]
      simp [hx, ih b hnd' hbx]

/-- C6: node creation deduplicates by rounded coordinates — endpoints
rounding to the same 7-decimal key (Python banker's rounding) yield a
single node; node coordinates are the first-occurrence deduplication of
all candidate points, and node ids are `node_0000`, `node_0001`, … in
order of first appearance. -/
theorem C6_node_dedup (lines : List GeoLine) (intersections : List (ℚ × ℚ))
    (l1 l2 : GeoLine) (p1 p2 : ℚ × ℚ)
    (h1 : l1 ∈ lines) (h2 : l2 ∈ lines)
    (hp1 : p1 ∈ lineEndpoints l1) (hp2 : p2 ∈ lineEndpoints l2)
    (heq : roundPoint p1 = roundPoint p2) :
    ((networkNodes lines intersections).countP
        (fun n => decide (n.coordinates = roundPoint p1))) = 1 ∧
    ((networkNodes lines intersections).map (fun n => n.coordinates) =
      firstDedup ((candidatePoints lines intersections).map roundPoint)) ∧
    ((networkNodes lines intersections).map (fun n => n.node_id) =
      (List.range (networkNodes lines intersections).length).map nodeIdStr) := by
  have hmap : (networkNodes lines intersections).map (fun n => n.coordinates) =
      firstDedup ((candidatePoints lines intersections).map roundPoint) := by
    unfold networkNodes createNodes firstDedup
    simpa using createNodes_coords (candidatePoints lines intersections) []
  have hids : (networkNodes lines intersections).map (fun n => n.node_id) =
      (List.range (networkNodes lines intersections).length).map nodeIdStr := by
    unfold networkNodes createNodes
    exact createNodes_ids (candidatePoints lines intersections) [] (by simp)
  refine ⟨?_, hmap, hids⟩
  have hkey : roundPoint p1 ∈ (candidatePoints lines intersections).map roundPoint := by
    refine List.mem_map_of_mem roundPoint ?_
    unfold candidatePoints
    exact List.mem_append.mpr
      (Or.inl (mem_candidate_endpoints lines [] (Or.inl ⟨l1, h1, hp1⟩)))
  have hmem : roundPoint p1 ∈
      (networkNodes lines intersections).map (fun n => n.coordinates) := by
    rw [hmap, mem_firstDedup]
    exact hkey
  have hnd : ((networkNodes lines intersections).map
      (fun n => n.coordinates)).Nodup := by
    rw [hmap]
    exact firstDedup_nodup _
  exact countP_map_eq_one (fun n => n.coordinates) (networkNodes lines intersections)
    (roundPoint p1) hnd hmem

theorem C6_node_dedup_witness :
    roundPoint (mkRat 1 3, 0) = roundPoint (mkRat 3333333 10000000, 0) ∧
    ((networkNodes sampleLines []).countP
      (fun n => decide (n.coordinates = roundPoint (mkRat 1 3, 0)))) = 1 :=
  ⟨by decide,
   (C6_node_dedup sampleLines []
     { coords := [(mkRat 1 3, 0), (1, 1)] }
     { coords := [(mkRat 3333333 10000000, 0), (2, 0)] }
     (mkRat 1 3, 0) (mkRat 3333333 10000000, 0)
     (by decide) (by decide) (by decide) (by decide) (by decide)).1⟩

/-! C7 lemmas -/

theorem slookup_isSome_iff {α : Type} (d : List (String × α)) (k : String) :
    (slookup d k).isSome = true ↔ ∃ kv ∈ d, kv.1 = k := by
  unfold slookup
  cases hf : d.find? (fun kv => kv.1 == k) with
  | none =>
    simp only [Option.map_none', Option.isSome_none, Bool.false_eq_true, false_iff]
    rintro ⟨kv, hkv, hfst⟩
    have := List.find?_eq_none.mp hf kv hkv
    simp [hfst] at this
  | some kv0 =>
    simp only [Option.map_some', Option.isSome_some, true_iff]
    have hp := List.find?_some hf
    exact ⟨kv0, List.mem_of_find?_eq_some hf, beq_iff_eq.mp hp⟩

theorem dictInsert_isSome_self {α : Type} (d : List (String × α)) (k : String) (v : α) :
    (slookup (dictInsert d k v) k).isSome = true := by
  rw [slookup_isSome_iff]
  unfold dictInsert
  by_cases hex : (d.any (fun kv => kv.1 == k)) = true
  · rw [if_pos hex]
    obtain ⟨kv, hkv, hbe⟩ := List.any_eq_true.mp hex
    refine ⟨(k, v), List.mem_map.mpr ⟨kv, hkv, ?_⟩, rfl⟩
    exact if_pos hbe
  · rw [if_neg hex]
    exact ⟨(k, v), List.mem_append.mpr (Or.inr (List.mem_singleton.mpr rfl)), rfl⟩

theorem dictInsert_isSome_mono {α : Type} (d : List (String × α)) (k k' : String) (v : α)
    (h : (slookup d k').isSome = true) :
    (slookup (dictInsert d k v) k').isSome = true := by
  rw [slookup_isSome_iff] at h ⊢
  obtain ⟨kv, hkv, hfst⟩ := h
  unfold dictInsert
  by_cases hex : (d.any (fun kv => kv.1 == k)) = true
  · rw [if_pos hex]
    by_cases hbe : (kv.1 == k) = true
    · refine ⟨(k, v), List.mem_map.mpr ⟨kv, hkv, if_pos hbe⟩, ?_⟩
      rw [← beq_iff_eq.mp hbe, hfst]
    · exact ⟨kv, List.mem_map.mpr ⟨kv, hkv, if_neg hbe⟩, hfst⟩
  · rw [if_neg hex]
    exact ⟨kv, List.mem_append.mpr (Or.inl hkv), hfst⟩

theorem identifyPass3_preserves_key {segs : List (String × ProcSegment)} {k : String} :
    ∀ {ns : List ProcNode} {g : List (String × GateEntry)} {ns' : List ProcNode}
      {g' : List (String × GateEntry)},
      identifyPass3 segs ns g = some (ns', g') →
      (slookup g k).isSome = true → (slookup g' k).isSome = true := by
  intro ns
  induction ns with
  | nil =>
    intro g ns' g' h hk
    simp only [identifyPass3] at h
    cases h
    exact hk
  | cons n rest ih =>
    intro g ns' g' h hk
    simp only [identifyPass3] at h
    split at h
    · split at h
      · cases h
      · rename_i seg hseg
        by_cases hty : (seg.segment_type == "parking_position") = true
        · rw [if_pos hty] at h
          split at h
          · cases h
          · rename_i ns1 gs1 hrec
            cases h
            exact ih hrec (dictInsert_isSome_mono _ _ _ _ hk)
        · rw [if_neg hty] at h
          split at h
          · cases h
          · rename_i ns1 gs1 hrec
            cases h
            exact ih hrec hk
    · split at h
      · cases h
      · rename_i ns1 gs1 hrec
        cases h
        exact ih hrec hk

theorem identifyPass3_gate {segs : List (String × ProcSegment)} :
    ∀ {ns : List ProcNode} {g : List (String × GateEntry)} {ns' : List ProcNode}
      {g' : List (String × GateEntry)},
      identifyPass3 segs ns g = some (ns', g') →
      ∀ n ∈ ns', ∀ sid seg, n.connected_segments = [sid] →
        slookup segs sid = some seg → seg.segment_type = "parking_position" →
        n.node_type = "gate" ∧
        n.gate_info = some { gate_id := seg.name, heading := seg.heading,
                             segment_id := seg.segment_id } ∧
        (slookup g' seg.name).isSome = true := by
  intro ns
  induction ns with
  | nil =>
    intro g ns' g' h n hn
    simp only [identifyPass3] at h
    cases h
    exact fun sid seg hcs hseg hty => absurd hn (List.not_mem_nil n)
  | cons m rest ih =>
    intro g ns' g' h n hn sid seg hcs hseg hty
    simp only [identifyPass3] at h
    split at h
    · rename_i sid0 heq0
      split at h
      · cases h
      · rename_i seg0 hseg0
        by_cases hty0 : (seg0.segment_type == "parking_position") = true
        · rw [if_pos hty0] at h
          split at h
          · cases h
          · rename_i ns1 gs1 hrec
            cases h
            rcases List.mem_cons.mp hn with rfl | hmem
            · have hcs' : m.connected_segments = [sid] := hcs
              have hsid : sid0 = sid := by
                rw [heq0] at hcs'
                injection hcs' with h1 _
              have hsegEq : seg0 = seg := by
                rw [hsid, hseg] at hseg0
                injection hseg0 with h1
                exact h1.symm
              subst hsegEq
              refine ⟨rfl, rfl, ?_⟩
              exact identifyPass3_preserves_key hrec
                (dictInsert_isSome_self _ seg0.name _)
            · exact ih hrec n hmem sid seg hcs hseg hty
        · rw [if_neg hty0] at h
          split at h
          · cases h
          · rename_i ns1 gs1 hrec
            cases h
            rcases List.mem_cons.mp hn with rfl | hmem
            · have hsid : sid0 = sid := by
                rw [heq0] at hcs
                injection hcs with h1 _
              rw [← hsid, hseg0] at hseg
              injection hseg with hsegEq
              rw [← hsegEq] at hty
              rw [hty] at hty0
              exact absurd (beq_self_eq_true "parking_position") hty0
            · exact ih hrec n hmem sid seg hcs hseg hty
    · rename_i hnotone
      split at h
      · cases h
      · rename_i ns1 gs1 hrec
        cases h
        rcases List.mem_cons.mp hn with rfl | hmem
        · exact absurd hcs (fun hh => hnotone sid hh)
        · exact ih hrec n hmem sid seg hcs hseg hty

/-- C7: the special-node classifier marks as a gate every node whose
only connected segment is a parking position — such a node gets
`node_type = "gate"`, `gate_info` holding the parking position's name,
heading and segment id, and an entry in the returned gates mapping
under that name. -/
theorem C7_gate_role_rule (runway_points : List String)
    (positions : List (String × ParkingPos)) (segs : List (String × ProcSegment))
    (nodes nodes' : List ProcNode) (gates : List (String × GateEntry))
    (hrun : identify_special_nodes runway_points positions segs nodes =
      some (nodes', gates))
    (n : ProcNode) (hn : n ∈ nodes') (sid : String) (seg : ProcSegment)
    (hcs : n.connected_segments = [sid]) (hseg : slookup segs sid = some seg)
    (hty : seg.segment_type = "parking_position") :
    n.node_type = "gate" ∧
    n.gate_info = some { gate_id := seg.name, heading := seg.heading,
                         segment_id := seg.segment_id } ∧
    (slookup gates seg.name).isSome = true := by
  unfold identify_special_nodes at hrun
  split at hrun
  · cases hrun
  · split at hrun
    · cases hrun
    · exact identifyPass3_gate hrun n hn sid seg hcs hseg hty

theorem C7_gate_role_rule_witness :
    ({ node_id := "N0", coordinates := ((0 : ℤ), (0 : ℤ)),
       connected_segments := ["P0"], node_type := "gate",
       gate_info := some { gate_id := "W34", heading := 90, segment_id := "P0" } } :
        ProcNode).node_type = "gate" ∧
    (slookup
      [("W34", ({ node_id := "N0", coordinates := ((0 : ℤ), (0 : ℤ)), heading := 90,
                  segment_id := "P0" } : GateEntry))] "W34").isSome = true :=
  ⟨(C7_gate_role_rule lfpoRunwayPoints [] classifierSegs classifierNodes
      [{ node_id := "N0", coordinates := (0, 0), connected_segments := ["P0"],
         node_type := "gate",
         gate_info := some { gate_id := "W34", heading := 90, segment_id := "P0" } },
       { node_id := "N1", coordinates := (1, 0), connected_segments := ["P0", "T0"],
         node_type := "runway_exit", gate_info := none },
       { node_id := "N2", coordinates := (2, 0), connected_segments := ["T0"],
         node_type := "intersection", gate_info := none }]
      [("W34", { node_id := "N0", coordinates := (0, 0), heading := 90,
                 segment_id := "P0" })]
      (by decide)
      { node_id := "N0", coordinates := (0, 0), connected_segments := ["P0"],
        node_type := "gate",
        gate_info := some { gate_id := "W34", heading := 90, segment_id := "P0" } }
      (by decide) "P0"
      { segment_id := "P0", start_node := "N0", end_node := "N1", geometry := [],
        segment_type := "parking_position", name := "W34", length := 5, heading := 90 }
      (by decide) (by decide) (by decide)).1,
   (C7_gate_role_rule lfpoRunwayPoints [] classifierSegs classifierNodes
      [{ node_id := "N0", coordinates := (0, 0), connected_segments := ["P0"],
         node_type := "gate",
         gate_info := some { gate_id := "W34", heading := 90, segment_id := "P0" } },
       { node_id := "N1", coordinates := (1, 0), connected_segments := ["P0", "T0"],
         node_type := "runway_exit", gate_info := none },
       { node_id := "N2", coordinates := (2, 0), connected_segments := ["T0"],
         node_type := "intersection", gate_info := none }]
      [("W34", { node_id := "N0", coordinates := (0, 0), heading := 90,
                 segment_id := "P0" })]
      (by decide)
      { node_id := "N0", coordinates := (0, 0), connected_segments := ["P0"],
        node_type := "gate",
        gate_info := some { gate_id := "W34", heading := 90, segment_id := "P0" } }
      (by decide) "P0"
      { segment_id := "P0", start_node := "N0", end_node := "N1", geometry := [],
        segment_type := "parking_position", name := "W34", length := 5, heading := 90 }
      (by decide) (by decide) (by decide)).2.2⟩

theorem slookup_mem {α : Type} {l : List (String × α)} {k : String} {v : α}
    (h : slookup l k = some v) : (k, v) ∈ l := by
  unfold slookup at h
  cases hf : l.find? (fun kv => kv.1 == k) with
  | none => rw [hf] at h; cases h
  | some kv =>
    rw [hf] at h
    injection h with hv
    have hmem := List.mem_of_find?_eq_some hf
    have hkey := List.find?_some hf
    have : kv = (k, v) := by
      obtain ⟨k0, v0⟩ := kv
      have hk0 : k0 = k := beq_iff_eq.mp hkey
      simp only at hv
      rw [hk0, hv]
    exact this ▸ hmem

theorem WFGraphB_sound {segs : List TaxiSegment} {graph : GraphT}
    (h : WFGraphB segs graph = true) : WFGraph segs graph := by
  intro k adj hlk e he
  have hmem : (k, adj) ∈ graph := slookup_mem hlk
  have h1 := List.all_eq_true.mp h _ hmem
  have h2 := List.all_eq_true.mp h1 e he
  cases hf : findSeg segs e.2.1 with
  | none => rw [hf] at h2; cases h2
  | some s =>
    rw [hf] at h2
    rcases Bool.and_eq_true_iff.mp h2 with ⟨hlen, hends⟩
    refine ⟨s, rfl, beq_iff_eq.mp hlen, ?_⟩
    rcases Bool.or_eq_true_iff.mp hends with hcase | hcase
    · rcases Bool.and_eq_true_iff.mp hcase with ⟨ha, hb⟩
      exact Or.inl ⟨beq_iff_eq.mp ha, beq_iff_eq.mp hb⟩
    · rcases Bool.and_eq_true_iff.mp hcase with ⟨ha, hb⟩
      exact Or.inr ⟨beq_iff_eq.mp ha, beq_iff_eq.mp hb⟩

theorem dlookup_dupdate (dm : DistMap) (k : String) (v : DistV × List String)
    (u : String) :
    dlookup (dupdate dm k v) u =
      if u = k then (dlookup dm u).map (fun _ => v) else dlookup dm u := by
  induction dm with
  | nil =>
    by_cases hk : u = k <;> simp [dupdate, dlookup, hk]
  | cons kv rest ih =>
    have hfst : (if (kv.1 == k) = true then (kv.1, v) else kv).1 = kv.1 := by
      by_cases hbe : (kv.1 == k) = true <;> simp [hbe]
    by_cases hku : (kv.1 == u) = true
    · have lhs : dlookup (dupdate (kv :: rest) k v) u =
          some (if (kv.1 == k) = true then (kv.1, v) else kv).2 := by
        unfold dupdate dlookup
        rw [List.map_cons]
        simp only [List.find?_cons, hfst, hku]
        rfl
      have rhs : dlookup (kv :: rest) u = some kv.2 := by
        unfold dlookup
        simp only [List.find?_cons, hku]
        rfl
      rw [lhs, rhs]
      by_cases hk : u = k
      · have hbe : (kv.1 == k) = true := beq_iff_eq.mpr ((beq_iff_eq.mp hku).trans hk)
        simp [hk, hbe]
      · have hbe : (kv.1 == k) = false := by
          rw [beq_eq_false_iff_ne]
          intro hh
          exact hk ((beq_iff_eq.mp hku).symm.trans hh)
        simp [hk, hbe]
    · have hku' : (kv.1 == u) = false := Bool.not_eq_true _ ▸ Bool.eq_false_iff.mpr hku
      have lhs : dlookup (dupdate (kv :: rest) k v) u = dlookup (dupdate rest k v) u := by
        unfold dupdate dlookup
        rw [List.map_cons]
        simp only [List.find?_cons, hfst, hku']
      have rhs : dlookup (kv :: rest) u = dlookup rest u := by
        unfold dlookup
        simp only [List.find?_cons, hku']
      rw [lhs, rhs, ih]

theorem dlookup_dupdate_self {dm : DistMap} {k : String} {pr : DistV × List String}
    (v : DistV × List String) (h : dlookup dm k = some pr) :
    dlookup (dupdate dm k v) k = some v := by
  rw [dlookup_dupdate, if_pos rfl, h]
  rfl

theorem dlookup_dupdate_cases {dm : DistMap} {k : String} {v pr : DistV × List String}
    {u : String} (h : dlookup (dupdate dm k v) u = some pr) :
    (u = k ∧ pr = v) ∨ dlookup dm u = some pr := by
  rw [dlookup_dupdate] at h
  by_cases hk : u = k
  · rw [if_pos hk] at h
    cases hl : dlookup dm u with
    | none => rw [hl] at h; cases h
    | some pr0 =>
      rw [hl] at h
      injection h with hpr
      exact Or.inl ⟨hk, hpr.symm⟩
  · rw [if_neg hk] at h
    exact Or.inr h

theorem distLeP_refl (dm : DistMap) : distLeP dm dm := by
  intro u pr2 h
  exact ⟨pr2, h, fun x2 hx2 => ⟨x2, hx2, le_refl x2⟩⟩

theorem distLeP_dupdate {dm : DistMap} {k : String} {dv : DistV} {pv : List String}
    {nd : ℤ} {np : List String}
    (hlk : dlookup dm k = some (dv, pv)) (hlt : ltDistV nd dv = true) :
    distLeP (dupdate dm k (some nd, np)) dm := by
  intro u pr2 h
  by_cases hk : u = k
  · subst hk
    rw [hlk] at h
    injection h with hpr
    subst hpr
    refine ⟨(some nd, np), dlookup_dupdate_self _ hlk, ?_⟩
    intro x2 hx2
    dsimp only at hx2
    subst hx2
    exact ⟨nd, rfl, le_of_lt (of_decide_eq_true hlt)⟩
  · refine ⟨pr2, ?_, fun x2 hx2 => ⟨x2, hx2, le_refl x2⟩⟩
    rw [dlookup_dupdate, if_neg hk]
    exact h

theorem dLeP_mono {d1 d2 : DistMap} {u : String} {c : ℤ}
    (hle : distLeP d1 d2) (h : dLeP d2 u c) : dLeP d1 u c := by
  obtain ⟨pr, hpr, x, hx, hxc⟩ := h
  obtain ⟨pr1, hpr1, hall⟩ := hle u pr hpr
  obtain ⟨x1, hx1, hx1le⟩ := hall x hx
  exact ⟨pr1, hpr1, x1, hx1, le_trans hx1le hxc⟩

theorem DWalk_mono {segs : List TaxiSegment} {d1 d2 : DistMap}
    (hle : distLeP d1 d2) :
    ∀ {u c p w}, DWalk segs d2 u c p w → DWalk segs d1 u c p w := by
  intro u c p w h
  induction h with
  | nil u c hd => exact DWalk.nil u c (dLeP_mono hle hd)
  | step u c sid s v w rest hfind hends hd _ ih =>
    exact DWalk.step u c sid s v w rest hfind hends (dLeP_mono hle hd) ih

theorem DWalk_start {segs : List TaxiSegment} {dist : DistMap} {u : String} {c : ℤ}
    {p : List String} {w : String} (h : DWalk segs dist u c p w) : dLeP dist u c := by
  cases h with
  | nil _ _ hd => exact hd
  | step _ _ _ _ _ _ _ _ _ hd _ => exact hd

theorem walkCost_cons (segs : List TaxiSegment) (sid : String) (rest : List String)
    {s : TaxiSegment} (hfind : findSeg segs sid = some s) :
    walkCost segs (sid :: rest) = s.length + walkCost segs rest := by
  simp only [walkCost, hfind]

theorem walkCost_nonneg {segs : List TaxiSegment}
    (hlen : ∀ s ∈ segs, 0 ≤ s.length) :
    ∀ p : List String, 0 ≤ walkCost segs p := by
  intro p
  induction p with
  | nil => simp [walkCost]
  | cons sid rest ih =>
    cases hf : findSeg segs sid with
    | none =>
      simp only [walkCost, hf]
      simpa using ih
    | some s =>
      simp only [walkCost, hf]
      have hs : s ∈ segs := List.mem_of_find?_eq_some hf
      have hsl := hlen s hs
      omega

theorem walkCost_append (segs : List TaxiSegment) :
    ∀ (p q : List String), walkCost segs (p ++ q) = walkCost segs p + walkCost segs q := by
  intro p q
  induction p with
  | nil => simp [walkCost]
  | cons sid rest ih =>
    simp only [List.cons_append, walkCost, List.append_eq, ih]
    ring

theorem DWalk_end {segs : List TaxiSegment} {dist : DistMap} :
    ∀ {u : String} {c : ℤ} {p : List String} {w : String},
      DWalk segs dist u c p w → dLeP dist w (c + walkCost segs p) := by
  intro u c p w h
  induction h with
  | nil u c hd =>
    simpa [walkCost] using hd
  | step u c sid s v w rest hfind hends hd hw ih =>
    rw [walkCost_cons segs sid rest hfind]
    have : c + (s.length + walkCost segs rest) = (c + s.length) + walkCost segs rest := by
      ring
    rw [this]
    exact ih

theorem DWalk_append {segs : List TaxiSegment} {dist : DistMap} :
    ∀ {u : String} {c : ℤ} {p : List String} {w : String},
      DWalk segs dist u c p w →
      ∀ {q : List String} {z : String},
        DWalk segs dist w (c + walkCost segs p) q z →
        DWalk segs dist u c (p ++ q) z := by
  intro u c p w h
  induction h with
  | nil u c hd =>
    intro q z hq
    simpa [walkCost] using hq
  | step u c sid s v w rest hfind hends hd hw ih =>
    intro q z hq
    rw [List.cons_append]
    refine DWalk.step u c sid s v z (rest ++ q) hfind hends hd ?_
    refine ih ?_
    rw [walkCost_cons segs sid rest hfind] at hq
    have : c + (s.length + walkCost segs rest) = (c + s.length) + walkCost segs rest := by
      ring
    rw [this] at hq
    exact hq

theorem DWalk_visits {segs : List TaxiSegment} {dist : DistMap}
    (hlen : ∀ s ∈ segs, 0 ≤ s.length) :
    ∀ {u : String} {c : ℤ} {p : List String} {w : String},
      DWalk segs dist u c p w →
      ∀ sid ∈ p, ∀ s, findSeg segs sid = some s →
        (∃ c1, dLeP dist s.start_node c1 ∧ c1 ≤ c + walkCost segs p) ∧
        (∃ c2, dLeP dist s.end_node c2 ∧ c2 ≤ c + walkCost segs p) := by
  intro u c p w h
  induction h with
  | nil u c hd => intro sid hsid; cases hsid
  | step u c sid0 s0 v w rest hfind0 hends hd hw ih =>
    intro sid hsid s hfind
    have hs0len : 0 ≤ s0.length := hlen s0 (List.mem_of_find?_eq_some hfind0)
    have hrest_nonneg : 0 ≤ walkCost segs rest := walkCost_nonneg hlen rest
    have hcost : walkCost segs (sid0 :: rest) = s0.length + walkCost segs rest :=
      walkCost_cons segs sid0 rest hfind0
    rcases List.mem_cons.mp hsid with rfl | hmem
    · have hseq : s = s0 := by
        rw [hfind0] at hfind
        injection hfind with h1
        exact h1.symm
      subst hseq
      have hvstart := DWalk_start hw
      rcases hends with ⟨hu, hv⟩ | ⟨hu, hv⟩
      · constructor
        · exact ⟨c, hu ▸ hd, by omega⟩
        · exact ⟨c + s.length, hv ▸ hvstart, by omega⟩
      · constructor
        · exact ⟨c + s.length, hv ▸ hvstart, by omega⟩
        · exact ⟨c, hu ▸ hd, by omega⟩
    · obtain ⟨⟨c1, hc1, hc1le⟩, ⟨c2, hc2, hc2le⟩⟩ := ih sid hmem s hfind
      constructor
      · exact ⟨c1, hc1, by omega⟩
      · exact ⟨c2, hc2, by omega⟩

theorem relax_no_dup {segs : List TaxiSegment} {dist : DistMap}
    (hlen : ∀ s ∈ segs, 0 ≤ s.length)
    {st : String} {p : List String} {u : String}
    (hwalk : DWalk segs dist st 0 p u)
    {sid : String} {s : TaxiSegment} (hfind : findSeg segs sid = some s)
    {v : String}
    (hends : (u = s.start_node ∧ v = s.end_node) ∨ (u = s.end_node ∧ v = s.start_node))
    {dv : DistV} {pv : List String} (hlk : dlookup dist v = some (dv, pv))
    (hlt : ltDistV (walkCost segs p + s.length) dv = true) :
    sid ∉ p := by
  intro hmem
  obtain ⟨⟨c1, hc1, hc1le⟩, ⟨c2, hc2, hc2le⟩⟩ :=
    DWalk_visits hlen hwalk sid hmem s hfind
  have hslen : 0 ≤ s.length := hlen s (List.mem_of_find?_eq_some hfind)
  have hvle : ∃ cv, dLeP dist v cv ∧ cv ≤ walkCost segs p := by
    rcases hends with ⟨_, hv⟩ | ⟨_, hv⟩
    · exact ⟨c2, hv ▸ hc2, by simpa using hc2le⟩
    · exact ⟨c1, hv ▸ hc1, by simpa using hc1le⟩
  obtain ⟨cv, ⟨pr, hpr, x, hx, hxle⟩, hcvle⟩ := hvle
  rw [hlk] at hpr
  injection hpr with hpr
  subst hpr
  dsimp only at hx
  subst hx
  have : walkCost segs p + s.length < x := by
    unfold ltDistV at hlt
    exact of_decide_eq_true hlt
  omega

theorem relaxAll_inv {segs : List TaxiSegment}
    (hlen : ∀ s ∈ segs, 0 ≤ s.length)
    {forbidden allowed starts : List String} {d : ℤ} {p : List String} {u : String} :
    ∀ {adj : List (String × String × ℤ)} {dist : DistMap} {pq : List PQEntry}
      {dist' : DistMap} {pq' : List PQEntry},
      relaxAll segs forbidden allowed d p adj dist pq = some (dist', pq') →
      (∀ e ∈ adj, ∃ s, findSeg segs e.2.1 = some s ∧ e.2.2 = s.length ∧
        ((u = s.start_node ∧ e.1 = s.end_node) ∨ (u = s.end_node ∧ e.1 = s.start_node))) →
      ValidEntry segs dist starts forbidden (d, u, p) →
      StoredOk segs dist starts forbidden →
      (∀ e ∈ pq, ValidEntry segs dist starts forbidden e) →
      StoredOk segs dist' starts forbidden ∧
      (∀ e ∈ pq', ValidEntry segs dist' starts forbidden e) := by
  intro adj
  induction adj with
  | nil =>
    intro dist pq dist' pq' h hadj hval hst hpq
    simp only [relaxAll] at h
    cases h
    exact ⟨hst, hpq⟩
  | cons edge rest ih =>
    intro dist pq dist' pq' h hadj hval hst hpq
    obtain ⟨next_node, segment_id, length⟩ := edge
    simp only [relaxAll] at h
    by_cases hforb : (forbidden.contains segment_id) = true
    · rw [if_pos hforb] at h
      exact ih h (fun e he => hadj e (List.mem_cons_of_mem _ he)) hval hst hpq
    · rw [if_neg hforb] at h
      obtain ⟨s, hfind, hlength, hends⟩ :=
        hadj (next_node, segment_id, length) (List.mem_cons_self _ _)
      dsimp only at hfind hlength hends
      simp only [hfind] at h
      by_cases hallow : (!allowed.isEmpty && !(allowed.contains s.name)) = true
      · rw [if_pos hallow] at h
        exact ih h (fun e he => hadj e (List.mem_cons_of_mem _ he)) hval hst hpq
      · rw [if_neg hallow] at h
        cases hlk : dlookup dist next_node with
        | none => rw [hlk] at h; cases h
        | some pr =>
          obtain ⟨dv, pv⟩ := pr
          simp only [hlk] at h
          by_cases hlt : (ltDistV (d + length) dv) = true
          · rw [if_pos hlt] at h
            -- the relaxation updates the map and pushes the new entry
            obtain ⟨hcost, hnodup, hforbp, stw, hstw, hwalk⟩ := hval
            dsimp only at hcost hnodup hforbp hwalk
            have hlt' : ltDistV (walkCost segs p + s.length) dv = true := by
              rw [← hcost, ← hlength]
              exact hlt
            have hnotin : segment_id ∉ p :=
              relax_no_dup hlen hwalk hfind hends hlk hlt'
            have hmono : distLeP (dupdate dist next_node
                (some (d + length), p ++ [segment_id])) dist :=
              distLeP_dupdate hlk hlt
            have hnewcost : d + length = walkCost segs (p ++ [segment_id]) := by
              rw [walkCost_append, hcost, hlength]
              simp only [walkCost, hfind]
              ring
            have hnewnodup : (p ++ [segment_id]).Nodup := by
              rw [List.nodup_append]
              refine ⟨hnodup, List.nodup_singleton _, ?_⟩
              intro a ha hb
              have : a = segment_id := List.mem_singleton.mp hb
              exact hnotin (this ▸ ha)
            have hnewforb : ∀ sid ∈ p ++ [segment_id], sid ∉ forbidden := by
              intro sid hsid
              rcases List.mem_append.mp hsid with hsid' | hsid'
              · exact hforbp sid hsid'
              · have heq : sid = segment_id := List.mem_singleton.mp hsid'
                subst heq
                intro hc
                exact hforb (by simpa using hc)
            have hnewwalk : DWalk segs
                (dupdate dist next_node (some (d + length), p ++ [segment_id]))
                stw 0 (p ++ [segment_id]) next_node := by
              refine DWalk_append (DWalk_mono hmono hwalk) ?_
              refine DWalk.step u (0 + walkCost segs p) segment_id s next_node
                next_node [] hfind hends ?_ ?_
              · have := DWalk_end (DWalk_mono hmono hwalk)
                simpa using this
              · refine DWalk.nil next_node _ ?_
                refine ⟨(some (d + length), p ++ [segment_id]),
                  dlookup_dupdate_self _ hlk, d + length, rfl, ?_⟩
                rw [hnewcost, walkCost_append]
                simp only [walkCost, hfind]
                omega
            have hstored' : StoredOk segs
                (dupdate dist next_node (some (d + length), p ++ [segment_id]))
                starts forbidden := by
              intro u' pr' hpr'
              rcases dlookup_dupdate_cases hpr' with ⟨rfl, rfl⟩ | hold
              · refine Or.inr ⟨by rw [← hnewcost], hnewnodup, hnewforb, stw, hstw, ?_⟩
                exact hnewwalk
              · rcases hst u' pr' hold with hcase | ⟨hc1, hc2, hc3, st', hst', hw'⟩
                · exact Or.inl hcase
                · exact Or.inr ⟨hc1, hc2, hc3, st', hst', DWalk_mono hmono hw'⟩
            have hpq' : ∀ e ∈ ((d + length, next_node, p ++ [segment_id]) :: pq),
                ValidEntry segs
                  (dupdate dist next_node (some (d + length), p ++ [segment_id]))
                  starts forbidden e := by
              intro e he
              rcases List.mem_cons.mp he with rfl | hmem
              · exact ⟨hnewcost, hnewnodup, hnewforb, stw, hstw, hnewwalk⟩
              · obtain ⟨hc1, hc2, hc3, st', hst', hw'⟩ := hpq e hmem
                exact ⟨hc1, hc2, hc3, st', hst', DWalk_mono hmono hw'⟩
            have hval' : ValidEntry segs
                (dupdate dist next_node (some (d + length), p ++ [segment_id]))
                starts forbidden (d, u, p) :=
              ⟨hcost, hnodup, hforbp, stw, hstw, DWalk_mono hmono hwalk⟩
            exact ih h (fun e he => hadj e (List.mem_cons_of_mem _ he)) hval'
              hstored' hpq'
          · rw [if_neg hlt] at h
            exact ih h (fun e he => hadj e (List.mem_cons_of_mem _ he)) hval hst hpq

theorem minPQEntry_mem : ∀ (l : List PQEntry) (m : PQEntry),
    minPQEntry m l ∈ m :: l := by
  intro l
  induction l with
  | nil => intro m; simp [minPQEntry]
  | cons e es ih =>
    intro m
    simp only [minPQEntry]
    by_cases hc : entryLtB e m = true
    · rw [if_pos hc]
      rcases List.mem_cons.mp (ih e) with hh | hh
      · rw [hh]
        exact List.mem_cons_of_mem m (List.mem_cons_self e es)
      · exact List.mem_cons_of_mem m (List.mem_cons_of_mem e hh)
    · rw [if_neg hc]
      rcases List.mem_cons.mp (ih m) with hh | hh
      · rw [hh]
        exact List.mem_cons_self m (e :: es)
      · exact List.mem_cons_of_mem m (List.mem_cons_of_mem e hh)

theorem popMin_mem {pq : List PQEntry} {e : PQEntry} {pq' : List PQEntry}
    (h : popMin pq = some (e, pq')) : e ∈ pq := by
  cases pq with
  | nil => cases h
  | cons x xs =>
    simp only [popMin] at h
    injection h with h1
    injection h1 with h2 h3
    exact h2 ▸ minPQEntry_mem xs x

theorem popMin_subset {pq : List PQEntry} {e : PQEntry} {pq' : List PQEntry}
    (h : popMin pq = some (e, pq')) : ∀ x ∈ pq', x ∈ pq := by
  cases pq with
  | nil => cases h
  | cons x xs =>
    simp only [popMin] at h
    injection h with h1
    injection h1 with h2 h3
    intro y hy
    rw [← h3] at hy
    exact List.mem_of_mem_erase hy

theorem dijkstraLoop_inv {segs : List TaxiSegment} {graph : GraphT}
    (hwf : WFGraph segs graph) (hlen : ∀ s ∈ segs, 0 ≤ s.length)
    {targets forbidden allowed starts : List String} :
    ∀ (fuel : ℕ) {dist : DistMap} {pq : List PQEntry} {found : List String}
      {dm : DistMap},
      dijkstraLoop segs graph targets forbidden allowed fuel dist pq found = some dm →
      StoredOk segs dist starts forbidden →
      (∀ e ∈ pq, ValidEntry segs dist starts forbidden e) →
      StoredOk segs dm starts forbidden := by
  intro fuel
  induction fuel with
  | zero =>
    intro dist pq found dm h hst hpq
    rw [dijkstraLoop] at h
    split at h
    · injection h with h1
      exact h1 ▸ hst
    · cases h
  | succ fuel' ih =>
    intro dist pq found dm h hst hpq
    rw [dijkstraLoop] at h
    split at h
    · injection h with h1
      exact h1 ▸ hst
    · cases hpop : popMin pq with
      | none => rw [hpop] at h; injection h with h1; exact h1 ▸ hst
      | some pe =>
        obtain ⟨⟨d, current, p⟩, pq'⟩ := pe
        rw [hpop] at h
        have hcur_valid : ValidEntry segs dist starts forbidden (d, current, p) :=
          hpq _ (popMin_mem hpop)
        have hpq'_valid : ∀ e ∈ pq', ValidEntry segs dist starts forbidden e :=
          fun e he => hpq e (popMin_subset hpop e he)
        cases hlkc : dlookup dist current with
        | none => simp [hlkc] at h
        | some prc =>
          obtain ⟨du, pu⟩ := prc
          simp only [hlkc] at h
          by_cases hstale : (gtDistV d du) = true
          · rw [if_pos hstale] at h
            exact ih h hst hpq'_valid
          · rw [if_neg hstale] at h
            cases hadj : slookup graph current with
            | none => simp [hadj] at h
            | some adj =>
              simp only [hadj] at h
              cases hrel : relaxAll segs forbidden allowed d p adj dist pq' with
              | none => simp [hrel] at h
              | some dp =>
                obtain ⟨dist1, pq1⟩ := dp
                simp only [hrel] at h
                have hadjspec := hwf current adj hadj
                obtain ⟨hst1, hpq1⟩ := relaxAll_inv hlen hrel
                  (fun e he => hadjspec e he) hcur_valid hst hpq'_valid
                exact ih h hst1 hpq1

theorem dlookup_mapconst {graph : GraphT} {u : String}
    {pr : DistV × List String} :
    dlookup (graph.map (fun kv => (kv.1, ((none : DistV), ([] : List String))))) u =
      some pr → pr = (none, []) := by
  induction graph with
  | nil => intro h; cases h
  | cons kv rest ih =>
    intro h
    unfold dlookup at h
    rw [List.map_cons] at h
    by_cases hku : (kv.1 == u) = true
    · simp only [List.find?_cons, hku] at h
      injection h with h1
      exact h1.symm
    · have hku' : (kv.1 == u) = false := by
        rw [Bool.eq_false_iff]
        exact hku
      simp only [List.find?_cons, hku'] at h
      exact ih h

theorem initDistances_lookup {graph : GraphT} {starts : List String} :
    ∀ {u : String} {pr : DistV × List String},
      dlookup (initDistances graph starts) u = some pr →
      pr = (none, []) ∨ (pr = (some 0, []) ∧ u ∈ starts) := by
  unfold initDistances
  have main : ∀ (ss : List String) (dm : DistMap),
      (∀ u pr, dlookup dm u = some pr →
        pr = (none, []) ∨ (pr = (some 0, []) ∧ u ∈ starts)) →
      (∀ s ∈ ss, s ∈ starts) →
      ∀ u pr, dlookup (ss.foldl (fun dm s =>
          if (graph.find? (fun kv => kv.1 == s)).isSome then
            dupdate dm s (some 0, []) else dm) dm) u = some pr →
        pr = (none, []) ∨ (pr = (some 0, []) ∧ u ∈ starts) := by
    intro ss
    induction ss with
    | nil => intro dm hdm _ u pr h; exact hdm u pr h
    | cons x xs ih =>
      intro dm hdm hsub u pr h
      simp only [List.foldl_cons] at h
      refine ih _ ?_ (fun s hs => hsub s (List.mem_cons_of_mem x hs)) u pr h
      intro u' pr' h'
      by_cases hex : ((graph.find? (fun kv => kv.1 == x)).isSome : Bool) = true
      · rw [if_pos hex] at h'
        rcases dlookup_dupdate_cases h' with ⟨hueq, hpreq⟩ | hold
        · refine Or.inr ⟨hpreq, ?_⟩
          rw [hueq]
          exact hsub x (List.mem_cons_self x xs)
        · exact hdm u' pr' hold
      · rw [if_neg hex] at h'
        exact hdm u' pr' h'
  intro u pr h
  exact main starts _ (fun u' pr' h' => Or.inl (dlookup_mapconst h'))
    (fun s hs => hs) u pr h

theorem initDistances_storedOk {segs : List TaxiSegment} {graph : GraphT}
    {starts forbidden : List String} :
    StoredOk segs (initDistances graph starts) starts forbidden := by
  intro u pr h
  rcases initDistances_lookup h with hcase | ⟨hcase, hmem⟩
  · exact Or.inl hcase
  · subst hcase
    refine Or.inr ⟨rfl, List.nodup_nil, fun sid hsid => absurd hsid (List.not_mem_nil sid),
      u, hmem, ?_⟩
    exact DWalk.nil u 0 ⟨(some 0, []), h, 0, rfl, le_refl 0⟩

theorem dlookup_isSome_iff (dm : DistMap) (u : String) :
    (dlookup dm u).isSome = true ↔ ∃ kv ∈ dm, kv.1 = u := by
  unfold dlookup
  cases hf : dm.find? (fun kv => kv.1 == u) with
  | none =>
    simp only [Option.map_none', Option.isSome_none, Bool.false_eq_true, false_iff]
    rintro ⟨kv, hkv, hfst⟩
    have := List.find?_eq_none.mp hf kv hkv
    simp [hfst] at this
  | some kv0 =>
    simp only [Option.map_some', Option.isSome_some, true_iff]
    have hp := List.find?_some hf
    exact ⟨kv0, List.mem_of_find?_eq_some hf, beq_iff_eq.mp hp⟩

theorem initPQ_valid {segs : List TaxiSegment} {graph : GraphT}
    {starts forbidden : List String} :
    ∀ e ∈ initPQ graph starts,
      ValidEntry segs (initDistances graph starts) starts forbidden e := by
  intro e he
  unfold initPQ at he
  obtain ⟨s, hs, hfe⟩ := List.mem_filterMap.mp he
  by_cases hex : ((graph.find? (fun kv => kv.1 == s)).isSome : Bool) = true
  · rw [if_pos hex] at hfe
    injection hfe with hfe
    subst hfe
    refine ⟨rfl, List.nodup_nil, fun sid hsid => absurd hsid (List.not_mem_nil sid),
      s, hs, ?_⟩
    refine DWalk.nil s 0 ?_
    -- the start node's entry was set to (0, []) by the initialisation fold
    have hlook : dlookup (initDistances graph starts) s = some (some 0, []) := by
      unfold initDistances
      have base : (dlookup (graph.map
          (fun kv => (kv.1, ((none : DistV), ([] : List String))))) s).isSome = true := by
        obtain ⟨kv, hkv⟩ := Option.isSome_iff_exists.mp hex
        have hmem := List.mem_of_find?_eq_some hkv
        have hkey := List.find?_some hkv
        rw [dlookup_isSome_iff]
        exact ⟨(kv.1, (none, [])), List.mem_map_of_mem _ hmem, beq_iff_eq.mp hkey⟩
      have keep : ∀ (ss : List String) (dm : DistMap),
          dlookup dm s = some (some 0, []) →
          dlookup (ss.foldl (fun dm t =>
            if (graph.find? (fun kv => kv.1 == t)).isSome then
              dupdate dm t (some 0, []) else dm) dm) s = some (some 0, []) := by
        intro ss
        induction ss with
        | nil => intro dm h; exact h
        | cons x xs ihk =>
          intro dm h
          simp only [List.foldl_cons]
          refine ihk _ ?_
          by_cases hex2 : ((graph.find? (fun kv => kv.1 == x)).isSome : Bool) = true
          · rw [if_pos hex2]
            by_cases hxs : s = x
            · subst hxs
              exact dlookup_dupdate_self _ h
            · rw [dlookup_dupdate, if_neg hxs]
              exact h
          · rw [if_neg hex2]
            exact h
      have reach : ∀ (ss : List String) (dm : DistMap),
          (dlookup dm s).isSome = true → s ∈ ss →
          dlookup (ss.foldl (fun dm t =>
            if (graph.find? (fun kv => kv.1 == t)).isSome then
              dupdate dm t (some 0, []) else dm) dm) s = some (some 0, []) := by
        intro ss
        induction ss with
        | nil => intro dm _ hmem; exact absurd hmem (List.not_mem_nil s)
        | cons x xs ihr =>
          intro dm hsome hmem
          simp only [List.foldl_cons]
          rcases List.mem_cons.mp hmem with rfl | hmem'
          · rw [if_pos hex]
            obtain ⟨pr0, hpr0⟩ := Option.isSome_iff_exists.mp hsome
            exact keep xs _ (dlookup_dupdate_self _ hpr0)
          · by_cases hex2 : ((graph.find? (fun kv => kv.1 == x)).isSome : Bool) = true
            · rw [if_pos hex2]
              refine ihr _ ?_ hmem'
              by_cases hxs : s = x
              · subst hxs
                obtain ⟨pr0, hpr0⟩ := Option.isSome_iff_exists.mp hsome
                rw [dlookup_dupdate_self _ hpr0]
                rfl
              · rw [dlookup_dupdate, if_neg hxs]
                exact hsome
            · rw [if_neg hex2]
              exact ihr _ hsome hmem'
      exact reach starts _ base hs
    exact ⟨(some 0, []), hlook, 0, rfl, le_refl 0⟩
  · rw [if_neg hex] at hfe
    cases hfe

theorem dijkstra_result_nodup {segs : List TaxiSegment} {graph : GraphT}
    (hwf : WFGraph segs graph) (hlen : ∀ s ∈ segs, 0 ≤ s.length)
    {fuel : ℕ} {starts targets forbidden allowed : List String} {dm : DistMap}
    (h : dijkstra_multi_target segs graph fuel starts targets forbidden allowed =
      some dm) :
    ∀ u pr, dlookup dm u = some pr → pr.2.Nodup ∧ ∀ sid ∈ pr.2, sid ∉ forbidden := by
  have hst : StoredOk segs dm starts forbidden := by
    unfold dijkstra_multi_target at h
    exact dijkstraLoop_inv hwf hlen fuel h initDistances_storedOk initPQ_valid
  intro u pr hpr
  rcases hst u pr hpr with hcase | ⟨_, hnd, hforb, _⟩
  · subst hcase
    exact ⟨List.nodup_nil, fun sid hsid => absurd hsid (List.not_mem_nil sid)⟩
  · exact ⟨hnd, hforb⟩

theorem bestSelect_sel {segs : List TaxiSegment} {allowed : List String}
    {dm : DistMap} :
    ∀ {ts : List String} {bd : DistV} {acc : Option (List String × String)}
      {res : DistV × Option (List String × String)},
      bestSelect segs allowed dm ts bd acc = some res →
      (∀ bp bt, acc = some (bp, bt) → ∃ t pr, dlookup dm t = some pr ∧ pr.2 = bp) →
      ∀ bp bt, res.2 = some (bp, bt) → ∃ t pr, dlookup dm t = some pr ∧ pr.2 = bp := by
  intro ts
  induction ts with
  | nil =>
    intro bd acc res h hacc bp bt hres
    simp only [bestSelect] at h
    cases h
    exact hacc bp bt hres
  | cons t rest ih =>
    intro bd acc res h hacc bp bt hres
    cases hdl : dlookup dm t with
    | none => simp only [bestSelect, hdl] at h; cases h
    | some pr =>
      obtain ⟨dv, sp⟩ := pr
      simp only [bestSelect, hdl] at h
      by_cases hlt : ltDistVV dv bd = true
      · rw [if_pos hlt] at h
        cases hok : allNamesOk segs allowed sp with
        | none => rw [hok] at h; cases h
        | some b =>
          rw [hok] at h
          cases b with
          | true =>
            refine ih h (fun bp' bt' hacc' => ?_) bp bt hres
            injection hacc' with hacc''
            injection hacc'' with h1 h2
            exact ⟨t, (dv, sp), hdl, h1⟩
          | false => exact ih h hacc bp bt hres
      · rw [if_neg hlt] at h
        exact ih h hacc bp bt hres

theorem legStep_nodup {segs : List TaxiSegment} {sbn : List (String × List TaxiSegment)}
    {graph : GraphT} (hwf : WFGraph segs graph) (hlen : ∀ s ∈ segs, 0 ≤ s.length)
    {rc : RunwayConfig} {mt : MovementType} {p0 plast : String} {fuel : ℕ}
    {cw nw : String} {used : List String} {ln : String} {bp : List String} {bt : String}
    (h : legStep segs sbn graph rc mt p0 plast fuel cw nw used ln = some (some (bp, bt))) :
    bp.Nodup ∧ ∀ sid ∈ bp, sid ∉ used := by
  unfold legStep at h
  split at h
  · cases h
  · split at h
    · cases h
    · cases h
      rename_i xo dm hdm xp bd hbs
      obtain ⟨t, spr, hlk, hsp⟩ := bestSelect_sel hbs
        (fun bp' bt' h' => by cases h') bp bt rfl
      have hres := dijkstra_result_nodup hwf hlen hdm t spr hlk
      exact ⟨hsp ▸ hres.1, hsp ▸ hres.2⟩

theorem appendSegs_segments {segs : List TaxiSegment} :
    ∀ {bp : List String} {path path' : TaxiPath},
      appendSegs segs bp path = some path' →
      path'.segments = path.segments ++ bp := by
  intro bp
  induction bp with
  | nil =>
    intro path path' h
    simp only [appendSegs] at h
    cases h
    simp
  | cons sid rest ih =>
    intro path path' h
    simp only [appendSegs] at h
    cases hf : findSeg segs sid with
    | none => rw [hf] at h; cases h
    | some s =>
      rw [hf] at h
      have := ih h
      rw [this]
      simp [addSegment]

theorem findLegs_added {segs : List TaxiSegment}
    {sbn : List (String × List TaxiSegment)} {graph : GraphT}
    (hwf : WFGraph segs graph) (hlen : ∀ s ∈ segs, 0 ≤ s.length)
    {rc : RunwayConfig} {mt : MovementType} {p0 plast : String} {fuel : ℕ} :
    ∀ {pairs : List (String × String)} {st0 st : LoopState},
      findLegs segs sbn graph rc mt p0 plast fuel pairs st0 = some (some st) →
      ∃ added, st.path.segments = st0.path.segments ++ added ∧
        st.used = st0.used ++ added ∧ added.Nodup ∧
        ∀ sid ∈ added, sid ∉ st0.used := by
  intro pairs
  induction pairs with
  | nil =>
    intro st0 st h
    simp only [findLegs] at h
    cases h
    exact ⟨[], by simp, by simp, List.nodup_nil,
      fun sid hsid => absurd hsid (List.not_mem_nil sid)⟩
  | cons pr rest ih =>
    intro st0 st h
    obtain ⟨cw, nw⟩ := pr
    simp only [findLegs] at h
    split at h
    · cases h
    · cases h
    · rename_i bp bt hstep
      split at h
      · cases h
      · rename_i path' happ
        obtain ⟨hbpnd, hbpused⟩ := legStep_nodup hwf hlen hstep
        obtain ⟨added', hseg', hused', hnd', havoid'⟩ := ih h
        refine ⟨bp ++ added', ?_, ?_, ?_, ?_⟩
        · rw [hseg']
          dsimp only
          rw [appendSegs_segments happ]
          simp [List.append_assoc]
        · rw [hused']
          simp [List.append_assoc]
        · rw [List.nodup_append]
          refine ⟨hbpnd, hnd', ?_⟩
          intro a ha hb
          have hnotin := havoid' a hb
          exact hnotin (List.mem_append.mpr (Or.inr ha))
        · intro sid hsid
          rcases List.mem_append.mp hsid with hsid' | hsid'
          · exact hbpused sid hsid'
          · intro hc
            exact havoid' sid hsid' (List.mem_append.mpr (Or.inl hc))

theorem countP_le_one_of_nodup {l : List String} (h : l.Nodup) (sid : String) :
    l.countP (fun s => decide (s = sid)) ≤ 1 := by
  induction l with
  | nil => simp [List.countP_nil]
  | cons a rest ih =>
    rw [List.countP_cons]
    rcases List.nodup_cons.mp h with ⟨hna, hnd⟩
    by_cases ha : a = sid
    · subst ha
      have hz : rest.countP (fun s => decide (s = a)) = 0 := by
        rw [List.countP_eq_zero]
        intro b hb
        simp only [decide_eq_true_eq]
        intro hba
        exact hna (hba ▸ hb)
      simp [hz]
    · simp [ha, ih hnd]

theorem countP_pos_mem {l : List String} {sid : String}
    (h : 0 < l.countP (fun s => decide (s = sid))) : sid ∈ l := by
  rcases List.countP_pos.mp h with ⟨a, ha, hpa⟩
  have : a = sid := of_decide_eq_true hpa
  exact this ▸ ha

/-- Shape of the state the initial-segment code produces: the path holds
exactly one segment id, `used` is either that singleton or (for a
departure whose first node is the gate node) empty, and `legs` is empty. -/
theorem initialLeg_spec {cfg : RouterConfig} {sbn : List (String × List TaxiSegment)}
    {mt : MovementType} {p0 : String} {st0 : LoopState}
    (h : initialLeg cfg sbn mt p0 = some st0) :
    ∃ fsid, st0.path.segments = [fsid] ∧
      (st0.used = [fsid] ∨ (st0.used = [] ∧ mt = MovementType.departure)) ∧
      st0.legs = [] := by
  cases mt with
  | departure =>
    unfold initialLeg at h
    split at h
    · cases h
    · cases h
      dsimp only
      refine ⟨_, rfl, ?_, rfl⟩
      split
      · exact Or.inl rfl
      · exact Or.inr ⟨rfl, rfl⟩
  | arrival =>
    unfold initialLeg at h
    split at h
    · cases h
    · cases h
      exact ⟨_, rfl, Or.inl rfl, rfl⟩

/-- C4 (corrected): in a well-formed graph with nonnegative segment
lengths, every successful `find_path` result decomposes into the initial
segment, the loop legs, and the closing step; through the loop (before
the closing segment) every segment id appears at most once, except that
the initial gate segment of a departure whose `used` list started empty
may be retraversed once (at most two occurrences).  The closing segment
is appended outside this bound and may duplicate a final-leg segment. -/
theorem C4_no_segment_reuse_amended {fuel : ℕ} {a : Airport} {points : List String}
    {mt : MovementType} {p : TaxiPath}
    (hwf : WFGraph a.all_segments a.graph)
    (hlen : ∀ s ∈ a.all_segments, 0 ≤ s.length)
    (h : find_path fuel a points mt = some (some p)) :
    ∃ rc st0 st,
      slookup a.config.runway_configurations a.airport_config = some rc ∧
      initialLeg a.config a.segments_by_name mt (points.headD "") = some st0 ∧
      findLegs a.all_segments a.segments_by_name a.graph rc mt (points.headD "")
        (points.getLastD "") fuel (points.zip points.tail) st0 = some (some st) ∧
      p = closeTail a.config a.segments_by_name rc mt (points.getLastD "") st ∧
      ∀ sid : String,
        st.path.segments.countP (fun s => decide (s = sid)) ≤ 2 ∧
        (st.path.segments.countP (fun s => decide (s = sid)) = 2 →
          mt = MovementType.departure ∧ st0.used = [] ∧
            st0.path.segments = [sid]) := by
  unfold find_path findPathImpl at h
  split at h
  · cases h
  · cases h
  · split at h
    · cases h
    · rename_i rc hrc
      split at h
      · cases h
      · rename_i st0 hinit
        split at h
        · cases h
        · cases h
        · rename_i st hlegs
          cases h
          refine ⟨rc, st0, st, hrc, hinit, hlegs, rfl, ?_⟩
          intro sid
          obtain ⟨fsid, hseg0, hused0, _⟩ := initialLeg_spec hinit
          obtain ⟨added, hseg, hused, hnd, havoid⟩ := findLegs_added hwf hlen hlegs
          rw [hseg, hseg0, List.countP_append]
          have hone : [fsid].countP (fun s => decide (s = sid)) ≤ 1 := by
            by_cases hf : fsid = sid <;> simp [hf]
          have htwo : added.countP (fun s => decide (s = sid)) ≤ 1 :=
            countP_le_one_of_nodup hnd sid
          refine ⟨by omega, ?_⟩
          intro heq2
          have h1 : [fsid].countP (fun s => decide (s = sid)) = 1 := by omega
          have h2 : added.countP (fun s => decide (s = sid)) = 1 := by omega
          have hfs : fsid = sid := by
            by_contra hc
            simp [hc] at h1
          have hmem : sid ∈ added := countP_pos_mem (by omega)
          have hnot := havoid sid hmem
          rcases hused0 with hu | ⟨hu, hmt⟩
          · exact absurd (hu ▸ (hfs ▸ List.mem_singleton_self fsid)) hnot
          · refine ⟨hmt, hu, ?_⟩
            rw [hfs]

theorem C4_no_segment_reuse_amended_witness :
    WFGraphB sampleAirport.all_segments sampleAirport.graph = true ∧
    (∀ s ∈ sampleAirport.all_segments, 0 ≤ s.length) ∧
    (∃ rc st0 st,
      slookup sampleAirport.config.runway_configurations
        sampleAirport.airport_config = some rc ∧
      initialLeg sampleAirport.config sampleAirport.segments_by_name
        MovementType.departure ((["G1", "A", "W"] : List String).headD "") = some st0 ∧
      findLegs sampleAirport.all_segments sampleAirport.segments_by_name
        sampleAirport.graph rc MovementType.departure
        ((["G1", "A", "W"] : List String).headD "")
        ((["G1", "A", "W"] : List String).getLastD "") 30
        ((["G1", "A", "W"] : List String).zip (["G1", "A", "W"] : List String).tail)
        st0 = some (some st) ∧
      ({ segments := ["S0", "S0", "S1", "S2", "S2"], total_distance := 5,
          waypoints := [] } : TaxiPath) =
        closeTail sampleAirport.config sampleAirport.segments_by_name rc
          MovementType.departure ((["G1", "A", "W"] : List String).getLastD "") st ∧
      ∀ sid : String,
        st.path.segments.countP (fun s => decide (s = sid)) ≤ 2 ∧
        (st.path.segments.countP (fun s => decide (s = sid)) = 2 →
          MovementType.departure = MovementType.departure ∧ st0.used = [] ∧
            st0.path.segments = [sid])) :=
  ⟨by decide, by decide,
    C4_no_segment_reuse_amended (WFGraphB_sound (by decide)) (by decide) (by decide)⟩
